import Mathlib

/-!
CUDA adapter context layer (`source/adapters/cuda/context.hpp`).

A shallow embedding of `ScopedContext` and `ur_context_handle_t_`.

* Pointers and driver handles are natural numbers, `0` being `nullptr`.
* Everything outside `context.hpp` (the CUDA driver, the device object, the
  `urDevice*` entry points, user deleter callbacks) is an external call: it is
  appended to `World.trace`, oldest call first.
* The results the driver reports are scripted in `World.results`, one entry per
  driver call; an exhausted script reports `CUDA_SUCCESS`.
* A C++ `throw`, a failed `assert` and a member call through `nullptr` end the
  running operation; they are the `Failure` outcomes of `Exec`.
* The mutex is not modelled: operations run one at a time.
-/

namespace CudaContext

/-- Native driver context handle; `0` is `nullptr`. -/
abbrev CUcontext := Nat
/-- Native event handle; `0` is `nullptr`. -/
abbrev CUevent := Nat
/-- Native device ordinal. -/
abbrev CUdevice := Int
/-- Native driver result code. -/
abbrev CUresult := Nat
/-- Pointer to a device object; `0` is `nullptr`. -/
abbrev ur_device_handle_t := Nat
/-- Pointer to a USM pool object; `0` is `nullptr`. -/
abbrev ur_usm_pool_handle_t := Nat

def nullptr : Nat := 0
def CUDA_SUCCESS : CUresult := 0
def CU_EVENT_DEFAULT : Nat := 0

/-- External calls issued by the code of `context.hpp`. The driver calls that act on
the calling thread's current context carry it as their first argument. -/
inductive Call where
  | urDeviceRetain (hDevice : ur_device_handle_t)
  | retainNativeContext (Dev : ur_device_handle_t)
  | cuCtxGetCurrent
  | cuCtxSetCurrent (ctx : CUcontext)
  | cuEventCreate (current : CUcontext) (Flags : Nat)
  | cuEventRecord (current : CUcontext) (hEvent : CUevent) (hStream : Nat)
  | setBaseEvent (Dev : ur_device_handle_t) (EvBase : CUevent)
  | urDeviceRelease (hDevice : ur_device_handle_t)
  | cuDevicePrimaryCtxRelease (dev : CUdevice)
  | deleter (Function : Nat) (UserData : Nat)
  deriving DecidableEq

/-- Ways an operation ends without returning. -/
inductive Failure where
  /-- The statement `throw UR_RESULT_ERROR_INVALID_DEVICE`. -/
  | UR_RESULT_ERROR_INVALID_DEVICE
  /-- The throw of `UR_CHECK_ERROR` on the native result `Result`. -/
  | native (Result : CUresult)
  /-- A member call or a function call through a null pointer (undefined behaviour). -/
  | nullDereference
  /-- A failed `assert`. -/
  | assertion
  deriving DecidableEq

/-- Everything outside the context object that its code reads or writes. -/
structure World where
  /-- The native context current on the calling thread. -/
  current : CUcontext
  /-- Results of the coming driver calls; exhausted means `CUDA_SUCCESS`. -/
  results : List CUresult
  /-- Number of events created so far; the next handle is this plus one. -/
  eventsCreated : Nat
  /-- Base event slot writes `(device, event)`, newest first. -/
  baseEvents : List (ur_device_handle_t × CUevent)
  /-- External calls so far, oldest first. -/
  trace : List Call
  deriving DecidableEq

/-- The accessors of the device object that `context.hpp` reads (`device.hpp`). -/
structure DeviceTable where
  getNativeContext : ur_device_handle_t → CUcontext
  get : ur_device_handle_t → CUdevice

/-- An operation: runs on a world, returns or fails, and leaves a world. -/
def Exec (α : Type) : Type := World → Except Failure α × World

def Exec.pure {α : Type} (a : α) : Exec α := fun w => (.ok a, w)

def Exec.bind {α β : Type} (x : Exec α) (f : α → Exec β) : Exec β := fun w =>
  match x w with
  | (.ok a, w1) => f a w1
  | (.error e, w1) => (.error e, w1)

instance : Monad Exec where
  pure := Exec.pure
  bind := Exec.bind

def Exec.throw {α : Type} (e : Failure) : Exec α := fun w => (.error e, w)

instance instDecidableEqExcept {ε α : Type} [DecidableEq ε] [DecidableEq α] :
    DecidableEq (Except ε α) := fun a b =>
  match a, b with
  | .ok x, .ok y => if h : x = y then isTrue (by rw [h]) else isFalse (fun e => h (Except.ok.inj e))
  | .error x, .error y =>
    if h : x = y then isTrue (by rw [h]) else isFalse (fun e => h (Except.error.inj e))
  | .ok _, .error _ => isFalse (fun e => by cases e)
  | .error _, .ok _ => isFalse (fun e => by cases e)

/-- The result the driver reports for the next call. -/
def World.nextResult (w : World) : CUresult := w.results.headD CUDA_SUCCESS

/-- Record an external call that takes no driver result. -/
def World.log (w : World) (c : Call) : World :=
  { w with trace := w.trace ++ [c] }

/-- Record a driver call and consume its scripted result. -/
def World.advance (w : World) (c : Call) : World :=
  { w with results := w.results.tail, trace := w.trace ++ [c] }

/-- The base event slot of a device: its newest write, `nullptr` before any. -/
def World.getBaseEvent (w : World) (Dev : ur_device_handle_t) : CUevent :=
  match w.baseEvents.find? (fun p => p.1 == Dev) with
  | some p => p.2
  | none => nullptr

/-- Modelled from the spec: the driver call `cuCtxGetCurrent(&Original)` (CUDA driver,
not in src/). On success it stores the thread's current native context. -/
def cuCtxGetCurrent (Original : CUcontext) : Exec (CUresult × CUcontext) := fun w =>
  let r := w.nextResult
  (.ok (r, if r = CUDA_SUCCESS then w.current else Original), w.advance .cuCtxGetCurrent)

/-- Modelled from the spec: the driver call `cuCtxSetCurrent(ctx)` (CUDA driver, not
in src/). On success `ctx` becomes the thread's current native context. -/
def cuCtxSetCurrent (ctx : CUcontext) : Exec CUresult := fun w =>
  let r := w.nextResult
  let w1 := w.advance (.cuCtxSetCurrent ctx)
  (.ok r, if r = CUDA_SUCCESS then { w1 with current := ctx } else w1)

/-- Modelled from the spec: the driver call `cuEventCreate(&EvBase, Flags)` (CUDA
driver, not in src/). On success it stores a fresh event handle. -/
def cuEventCreate (EvBase : CUevent) (Flags : Nat) : Exec (CUresult × CUevent) := fun w =>
  let r := w.nextResult
  let w1 := w.advance (.cuEventCreate w.current Flags)
  if r = CUDA_SUCCESS then
    (.ok (r, w.eventsCreated + 1), { w1 with eventsCreated := w.eventsCreated + 1 })
  else (.ok (r, EvBase), w1)

/-- Modelled from the spec: the driver call `cuEventRecord(hEvent, hStream)` (CUDA
driver, not in src/). -/
def cuEventRecord (hEvent : CUevent) (hStream : Nat) : Exec CUresult := fun w =>
  (.ok w.nextResult, w.advance (.cuEventRecord w.current hEvent hStream))

/-- Modelled from the spec: the driver call `cuDevicePrimaryCtxRelease(dev)` (CUDA
driver, not in src/). -/
def cuDevicePrimaryCtxRelease (dev : CUdevice) : Exec CUresult := fun w =>
  (.ok w.nextResult, w.advance (.cuDevicePrimaryCtxRelease dev))

/-- Modelled from the spec: the macro `UR_CHECK_ERROR` (common.hpp, not in src/). A
native failure is fatal to the calling operation and surfaces the native error code
unchanged. -/
def UR_CHECK_ERROR (Result : CUresult) : Exec Unit :=
  if Result = CUDA_SUCCESS then pure () else Exec.throw (.native Result)

/-- Modelled from the spec: the entry point `urDeviceRetain` (device.cpp, not in
src/): retains the device; its result is discarded by the callers here. -/
def urDeviceRetain (hDevice : ur_device_handle_t) : Exec Unit := fun w =>
  (.ok (), w.log (.urDeviceRetain hDevice))

/-- Modelled from the spec: the entry point `urDeviceRelease` (device.cpp, not in
src/): releases the device; its result is discarded by the callers here. -/
def urDeviceRelease (hDevice : ur_device_handle_t) : Exec Unit := fun w =>
  (.ok (), w.log (.urDeviceRelease hDevice))

/-- The use of a pointer for a member access `Dev->` or for a call `Function(...)`:
undefined through `nullptr`. -/
def deref (Dev : ur_device_handle_t) : Exec Unit :=
  if Dev = nullptr then Exec.throw .nullDereference else pure ()

/-- Modelled from the spec: the member `Dev->retainNativeContext()` (device.hpp, not in
src/): retains the native context resource of the device. -/
def retainNativeContext (Dev : ur_device_handle_t) : Exec Unit := do
  deref Dev
  fun w => (.ok (), w.log (.retainNativeContext Dev))

/-- Modelled from the spec: the member `Dev->setBaseEvent(EvBase)` (device.hpp, not in
src/): stores the shared base timestamp event in the slot of the device. -/
def setBaseEvent (Dev : ur_device_handle_t) (EvBase : CUevent) : Exec Unit := do
  deref Dev
  fun w => (.ok (), { w.log (.setBaseEvent Dev EvBase) with
                      baseEvents := (Dev, EvBase) :: w.baseEvents })

/-- The member `Dev->getNativeContext()`. -/
def getNativeContext (T : DeviceTable) (Dev : ur_device_handle_t) : Exec CUcontext := do
  deref Dev
  pure (T.getNativeContext Dev)

/-- The member `Dev->get()`. -/
def get (T : DeviceTable) (Dev : ur_device_handle_t) : Exec CUdevice := do
  deref Dev
  pure (T.get Dev)

/-! ## `ScopedContext` -/

namespace ScopedContext

/-- `void setContext(CUcontext Desired)`. -/
def setContext (Desired : CUcontext) : Exec Unit := do
  let Original : CUcontext := nullptr
  let (Result, Original) ← cuCtxGetCurrent Original
  UR_CHECK_ERROR Result
  if Original ≠ Desired then
    let Result ← cuCtxSetCurrent Desired
    UR_CHECK_ERROR Result
  else
    pure ()

/-- `ScopedContext(ur_device_handle_t Device)`. -/
def constructor (T : DeviceTable) (Device : ur_device_handle_t) : Exec Unit := do
  if Device = nullptr then
    Exec.throw .UR_RESULT_ERROR_INVALID_DEVICE
  else
    let Desired ← getNativeContext T Device
    setContext Desired

/-- `ScopedContext(CUcontext NativeContext)`. -/
def constructorNative (NativeContext : CUcontext) : Exec Unit :=
  setContext NativeContext

/-- `~ScopedContext() {}`. -/
def destructor : Exec Unit := pure ()

end ScopedContext

/-! ## `ur_context_handle_t_` -/

/-- `struct deleter_data`: a callback and its user data, both pointers. -/
structure deleter_data where
  Function : Nat
  UserData : Nat
  deriving DecidableEq

/-- `void operator()() { Function(UserData); }`: a call through the function pointer
`Function`, undefined when it is null; the callback itself is an external call. -/
def deleter_data.call (d : deleter_data) : Exec Unit := do
  deref d.Function
  fun w => (.ok (), w.log (.deleter d.Function d.UserData))

/-- The data members of `ur_context_handle_t_` (`Mutex` left out). -/
structure ur_context_handle_t_ where
  /-- `std::vector<ur_device_handle_t> Devices`. -/
  Devices : List ur_device_handle_t
  /-- `std::atomic_uint32_t RefCount`. -/
  RefCount : Nat
  /-- `std::vector<deleter_data> ExtendedDeleters`. -/
  ExtendedDeleters : List deleter_data
  /-- `std::set<ur_usm_pool_handle_t> PoolHandles`. -/
  PoolHandles : List ur_usm_pool_handle_t
  deriving DecidableEq

/-- A member function: runs on the object and the world, returns a value and the
object as it leaves it. -/
abbrev Method (α : Type) : Type := ur_context_handle_t_ → Exec (α × ur_context_handle_t_)

namespace ur_context_handle_t_

/-- The body of the loop `for (auto &Dev : Devices)` of the constructor, with the
locals `i` and `EvBase` carried along. The counter `int i` is only compared with `0`; a
list that fits `uint32_t NumDevices` is too short to wrap it back to `0`, so it is a
natural number here. -/
def constructorLoop (T : DeviceTable) : List ur_device_handle_t → Nat → CUevent → Exec Unit
  | [], _, _ => pure ()
  | Dev :: rest, i, EvBase => do
    urDeviceRetain Dev
    retainNativeContext Dev
    let EvBase ←
      if i = 0 then do
        ScopedContext.constructor T Dev
        let (Result, EvBase) ← cuEventCreate EvBase CU_EVENT_DEFAULT
        UR_CHECK_ERROR Result
        let Result ← cuEventRecord EvBase 0
        UR_CHECK_ERROR Result
        pure EvBase
      else
        pure EvBase
    setBaseEvent Dev EvBase
    constructorLoop T rest (i + 1) EvBase

/-- `ur_context_handle_t_(const ur_device_handle_t *Devs, uint32_t NumDevices)`, the
list `Devs` being the array range `[Devs, Devs + NumDevices)`. -/
def constructor (T : DeviceTable) (Devs : List ur_device_handle_t) :
    Exec ur_context_handle_t_ := do
  let self : ur_context_handle_t_ :=
    { Devices := Devs, RefCount := 1, ExtendedDeleters := [], PoolHandles := [] }
  let EvBase : CUevent := nullptr
  let i : Nat := 0
  constructorLoop T self.Devices i EvBase
  pure self

/-- The loop of the destructor. -/
def destructorLoop (T : DeviceTable) : List ur_device_handle_t → Exec Unit
  | [] => pure ()
  | Dev :: rest => do
    urDeviceRelease Dev
    let dev ← get T Dev
    let Result ← cuDevicePrimaryCtxRelease dev
    UR_CHECK_ERROR Result
    destructorLoop T rest

/-- `~ur_context_handle_t_()`. A throw of `UR_CHECK_ERROR` ends the destructor at that
point; the devices after it are not released. -/
def destructor (T : DeviceTable) (self : ur_context_handle_t_) : Exec Unit :=
  destructorLoop T self.Devices

/-- The loop of `invokeExtendedDeleters`. -/
def invokeLoop : List deleter_data → Exec Unit
  | [] => pure ()
  | Deleter :: rest => do
    Deleter.call
    invokeLoop rest

/-- `void invokeExtendedDeleters()`. -/
def invokeExtendedDeleters : Method Unit := fun self => do
  invokeLoop self.ExtendedDeleters
  pure ((), self)

/-- `void setExtendedDeleter(ur_context_extended_deleter_t Function, void *UserData)`. -/
def setExtendedDeleter (Function UserData : Nat) : Method Unit := fun self =>
  pure ((), { self with
    ExtendedDeleters := self.ExtendedDeleters ++ [{ Function := Function, UserData := UserData }] })

/-- `const std::vector<ur_device_handle_t> &getDevices() const noexcept`. -/
def getDevices (self : ur_context_handle_t_) : List ur_device_handle_t := self.Devices

/-- `std::find(first, last, value)` on a vector, iterators being offsets from
`begin()`: the offset of the first element equal to `value`, the length if none. -/
def std_find : List ur_device_handle_t → ur_device_handle_t → Nat
  | [], _ => 0
  | x :: xs, value => if x = value then 0 else std_find xs value + 1

/-- `size_t getDeviceIndex(ur_device_handle_t hDevice)`, the `assert` being checked (a
build without `NDEBUG`). -/
def getDeviceIndex (hDevice : ur_device_handle_t) : Method Nat := fun self => do
  let It := std_find self.Devices hDevice
  if It ≠ self.Devices.length then
    pure (It - 0, self)
  else
    Exec.throw .assertion

/-- `uint32_t incrementReferenceCount() noexcept { return ++RefCount; }`. -/
def incrementReferenceCount : Method Nat := fun self =>
  let self : ur_context_handle_t_ := { self with RefCount := (self.RefCount + 1) % 2 ^ 32 }
  pure (self.RefCount, self)

/-- `uint32_t decrementReferenceCount() noexcept { return --RefCount; }`: on an unsigned
32-bit value, subtracting one is adding `2 ^ 32 - 1` modulo `2 ^ 32`. -/
def decrementReferenceCount : Method Nat := fun self =>
  let self : ur_context_handle_t_ :=
    { self with RefCount := (2 ^ 32 - 1 + self.RefCount) % 2 ^ 32 }
  pure (self.RefCount, self)

/-- `uint32_t getReferenceCount() const noexcept { return RefCount; }`. -/
def getReferenceCount (self : ur_context_handle_t_) : Nat := self.RefCount

/-- Insertion of a key into a `std::set`, kept as an ascending list: a key that is
present is not inserted again. -/
def setInsert (x : ur_usm_pool_handle_t) : List ur_usm_pool_handle_t → List ur_usm_pool_handle_t
  | [] => [x]
  | y :: ys => if x < y then x :: y :: ys else if x = y then y :: ys else y :: setInsert x ys

/-- Erasure of a key from a `std::set`: every element equal to the key goes. -/
def setErase (x : ur_usm_pool_handle_t) (l : List ur_usm_pool_handle_t) :
    List ur_usm_pool_handle_t :=
  l.filter fun y => y != x

/-- Modelled from the spec: `void addPool(ur_usm_pool_handle_t Pool)` (declared in
context.hpp, defined in context.cpp, not in src/): inserts the handle into the registered
set; inserting the same handle twice is idempotent. -/
def addPool (Pool : ur_usm_pool_handle_t) : Method Unit := fun self =>
  pure ((), { self with PoolHandles := setInsert Pool self.PoolHandles })

/-- Modelled from the spec: `void removePool(ur_usm_pool_handle_t Pool)` (declared in
context.hpp, defined in context.cpp, not in src/): removes the handle if present;
removing an absent handle is a no-op. -/
def removePool (Pool : ur_usm_pool_handle_t) : Method Unit := fun self =>
  pure ((), { self with PoolHandles := setErase Pool self.PoolHandles })

/-- Modelled from the spec: `ur_usm_pool_handle_t getOwningURPool(umf_memory_pool_t
*UMFPool)` (declared in context.hpp, defined in context.cpp, not in src/): scans the
registered set and returns the first handle whose underlying native pool identity equals
the argument, `none` being the not-found signal. The native pool identity of a handle is
the parameter `nativePool`. -/
def getOwningURPool (nativePool : ur_usm_pool_handle_t → Nat) (UMFPool : Nat) :
    Method (Option ur_usm_pool_handle_t) := fun self =>
  pure (self.PoolHandles.find? (fun Pool => nativePool Pool == UMFPool), self)

end ur_context_handle_t_

/-! ## Callers, call sequences and sample data used by the statements -/

/-- Every scripted driver result is a success: all native calls succeed. -/
def World.allSucceed (w : World) : Prop := ∀ r ∈ w.results, r = CUDA_SUCCESS

/-- A caller invoking the member `m` `K` times in a row, dropping the returned values. -/
def callTimes (m : Method Nat) : Nat → Method Unit
  | 0 => fun self => pure ((), self)
  | K + 1 => fun self => do
    let (_, self) ← m self
    callTimes m K self

/-- A caller registering the pairs `(Function, UserData)` of a list, in order. -/
def registerAll : List (Nat × Nat) → Method Unit
  | [] => fun self => pure ((), self)
  | p :: ps => fun self => do
    let (_, self) ← ur_context_handle_t_.setExtendedDeleter p.1 p.2 self
    registerAll ps self

/-- The callback invocation a registered entry stands for. -/
def deleterCall (d : deleter_data) : Call := .deleter d.Function d.UserData

/-- The calls the constructor issues for the devices after the first. -/
def restCalls (ev : CUevent) (rest : List ur_device_handle_t) : List Call :=
  rest.flatMap fun d => [.urDeviceRetain d, .retainNativeContext d, .setBaseEvent d ev]

/-- The calls the constructor issues for the first device when all of them succeed. -/
def firstCalls (T : DeviceTable) (w : World) (Dev : ur_device_handle_t) : List Call :=
  [.urDeviceRetain Dev, .retainNativeContext Dev, .cuCtxGetCurrent] ++
  (if w.current = T.getNativeContext Dev then []
    else [.cuCtxSetCurrent (T.getNativeContext Dev)]) ++
  [.cuEventCreate (T.getNativeContext Dev) CU_EVENT_DEFAULT,
   .cuEventRecord (T.getNativeContext Dev) (w.eventsCreated + 1) 0,
   .setBaseEvent Dev (w.eventsCreated + 1)]

/-- One `urDeviceRetain` and one `retainNativeContext` per list entry, in list order. -/
def retainCalls (Devs : List ur_device_handle_t) : List Call :=
  Devs.flatMap fun d => [.urDeviceRetain d, .retainNativeContext d]

/-- One `urDeviceRelease` and one `cuDevicePrimaryCtxRelease` per list entry, in list
order. -/
def releaseCalls (T : DeviceTable) (Devs : List ur_device_handle_t) : List Call :=
  Devs.flatMap fun d => [.urDeviceRelease d, .cuDevicePrimaryCtxRelease (T.get d)]

def Call.isRetain : Call → Bool
  | .urDeviceRetain _ => true
  | .retainNativeContext _ => true
  | _ => false

def Call.isCuEventCreate : Call → Bool
  | .cuEventCreate _ _ => true
  | _ => false

def Call.isCuEventRecord : Call → Bool
  | .cuEventRecord _ _ _ => true
  | _ => false

def Call.isSetBaseEvent : Call → Bool
  | .setBaseEvent _ _ => true
  | _ => false

/-- Whether the call is `retainNativeContext` on a device whose native device is `c`. -/
def Call.retainsNativeContextOf (T : DeviceTable) (c : CUdevice) : Call → Bool
  | .retainNativeContext d => T.get d == c
  | _ => false

def Call.isDeleter : Call → Bool
  | .deleter _ _ => true
  | _ => false

def Call.isRelease : Call → Bool
  | .urDeviceRelease _ => true
  | .cuDevicePrimaryCtxRelease _ => true
  | _ => false

/-- The operation calls no deleter callback, however it ends: what it adds to the trace
holds no callback invocation. -/
def Exec.callsNoDeleter {α : Type} (x : Exec α) : Prop :=
  ∀ w, ∃ issued, (x w).2.trace = w.trace ++ issued ∧ issued.filter Call.isDeleter = []

/-- The number of driver calls the constructor issues for its first device when none of
them fails: `cuCtxGetCurrent`, `cuCtxSetCurrent` if the context is not current yet,
`cuEventCreate` and `cuEventRecord`. -/
def nativeCallCount (T : DeviceTable) (w : World) (Dev : ur_device_handle_t) : Nat :=
  if w.current = T.getNativeContext Dev then 3 else 4

/-- Sample native pool identities: pool `P` wraps the native pool `P + 1000`. -/
def sampleNativePool : ur_usm_pool_handle_t → Nat := fun P => P + 1000

/-- Whether the registered entry holds a function and not a null pointer. -/
def deleter_data.callable (d : deleter_data) : Bool := d.Function != nullptr

/-- Sample device table: device `d` has native context `d + 100` and ordinal `d`. -/
def sampleTable : DeviceTable := { getNativeContext := fun d => d + 100, get := fun d => (d : Int) }

/-- Sample world: no context current, every driver call succeeds, nothing called yet. -/
def sampleWorld : World :=
  { current := 0, results := [], eventsCreated := 0, baseEvents := [], trace := [] }

/-- Sample world in which the third driver call reports the failure `5`. -/
def sampleFailing : World :=
  { current := 0, results := [0, 0, 5], eventsCreated := 0, baseEvents := [], trace := [] }

/-- Sample context over the devices `1, 2, 1` with two registered deleters. -/
def sampleContext : ur_context_handle_t_ :=
  { Devices := [1, 2, 1], RefCount := 1,
    ExtendedDeleters := [{ Function := 7, UserData := 70 }, { Function := 8, UserData := 80 }],
    PoolHandles := [5] }

/-- Sample context as the constructor returns it over the devices `1, 2, 1`. -/
def sampleFresh : ur_context_handle_t_ :=
  { Devices := [1, 2, 1], RefCount := 1, ExtendedDeleters := [], PoolHandles := [] }

/-- The sample world after the construction of a context over the devices `1, 2, 1`. -/
def sampleConstructed : World :=
  { current := 101, results := [], eventsCreated := 1,
    baseEvents := [(1, 1), (2, 1), (1, 1)],
    trace := [.urDeviceRetain 1, .retainNativeContext 1, .cuCtxGetCurrent,
      .cuCtxSetCurrent 101, .cuEventCreate 101 0, .cuEventRecord 101 1 0,
      .setBaseEvent 1 1, .urDeviceRetain 2, .retainNativeContext 2, .setBaseEvent 2 1,
      .urDeviceRetain 1, .retainNativeContext 1, .setBaseEvent 1 1] }

/-- The world `sampleConstructed` after the destruction of that context. -/
def sampleDestroyed : World :=
  { sampleConstructed with
    trace := sampleConstructed.trace ++
      [.urDeviceRelease 1, .cuDevicePrimaryCtxRelease 1, .urDeviceRelease 2,
       .cuDevicePrimaryCtxRelease 2, .urDeviceRelease 1, .cuDevicePrimaryCtxRelease 1] }

open ur_context_handle_t_

/-! ## Running operations step by step -/

@[simp]
theorem exec_bind_apply {α β : Type} (x : Exec α) (f : α → Exec β) (w : World) :
    (x >>= f) w = match x w with
      | (.ok a, w1) => f a w1
      | (.error e, w1) => (.error e, w1) := rfl

@[simp]
theorem exec_pure_apply {α : Type} (a : α) (w : World) :
    (Pure.pure a : Exec α) w = (.ok a, w) := rfl

@[simp]
theorem exec_throw_apply {α : Type} (e : Failure) (w : World) :
    (Exec.throw e : Exec α) w = (.error e, w) := rfl

theorem UR_CHECK_ERROR_apply (r : CUresult) (w : World) :
    UR_CHECK_ERROR r w = if r = CUDA_SUCCESS then (.ok (), w) else (.error (.native r), w) := by
  unfold UR_CHECK_ERROR
  split <;> rfl

theorem deref_apply (Dev : ur_device_handle_t) (w : World) :
    deref Dev w = if Dev = nullptr then (.error .nullDereference, w) else (.ok (), w) := by
  unfold deref
  split <;> rfl

theorem retainNativeContext_apply (Dev : ur_device_handle_t) (w : World) :
    retainNativeContext Dev w =
      if Dev = nullptr then (.error .nullDereference, w)
      else (.ok (), w.log (.retainNativeContext Dev)) := by
  by_cases h : Dev = nullptr <;> simp [retainNativeContext, deref_apply, h]

theorem setBaseEvent_apply (Dev : ur_device_handle_t) (EvBase : CUevent) (w : World) :
    setBaseEvent Dev EvBase w =
      if Dev = nullptr then (.error .nullDereference, w)
      else (.ok (), { w.log (.setBaseEvent Dev EvBase) with
                      baseEvents := (Dev, EvBase) :: w.baseEvents }) := by
  by_cases h : Dev = nullptr <;> simp [setBaseEvent, deref_apply, h]

theorem setContext_apply (Desired : CUcontext) (w : World) :
    ScopedContext.setContext Desired w =
      if w.nextResult = CUDA_SUCCESS then
        if w.current = Desired then (.ok (), w.advance .cuCtxGetCurrent)
        else
          if (w.advance .cuCtxGetCurrent).nextResult = CUDA_SUCCESS then
            (.ok (), { (w.advance .cuCtxGetCurrent).advance (.cuCtxSetCurrent Desired) with
                        current := Desired })
          else
            (.error (.native (w.advance .cuCtxGetCurrent).nextResult),
              (w.advance .cuCtxGetCurrent).advance (.cuCtxSetCurrent Desired))
      else (.error (.native w.nextResult), w.advance .cuCtxGetCurrent) := by
  simp only [ScopedContext.setContext, exec_bind_apply, cuCtxGetCurrent, UR_CHECK_ERROR_apply]
  by_cases h1 : w.nextResult = CUDA_SUCCESS
  · by_cases h2 : w.current = Desired
    · simp [h1, h2]
    · by_cases h3 : (w.advance .cuCtxGetCurrent).nextResult = CUDA_SUCCESS
      · simp [h1, h2, h3, cuCtxSetCurrent, UR_CHECK_ERROR_apply]
      · simp [h1, h2, h3, cuCtxSetCurrent, UR_CHECK_ERROR_apply]
  · simp [h1]

theorem ScopedContext_constructor_apply (T : DeviceTable) (Device : ur_device_handle_t)
    (w : World) :
    ScopedContext.constructor T Device w =
      if Device = nullptr then (.error .UR_RESULT_ERROR_INVALID_DEVICE, w)
      else ScopedContext.setContext (T.getNativeContext Device) w := by
  simp only [ScopedContext.constructor, getNativeContext]
  by_cases h : Device = nullptr
  · simp [h]
  · simp [h, deref_apply]



theorem constructorLoop_tail (T : DeviceTable) (ev : CUevent) :
    ∀ (rest : List ur_device_handle_t) (i : Nat) (w : World), i ≠ 0 →
      (∀ d ∈ rest, d ≠ nullptr) →
      constructorLoop T rest i ev w =
        (.ok (), { w with trace := w.trace ++ restCalls ev rest,
                          baseEvents := (rest.map fun d => (d, ev)).reverse ++ w.baseEvents }) := by
  intro rest
  induction rest with
  | nil => intro i w _ _; simp [constructorLoop, restCalls]
  | cons d rest ih =>
    intro i w hi hnn
    have hd : d ≠ nullptr := hnn d (List.mem_cons_self _ _)
    have hr : ∀ x ∈ rest, x ≠ nullptr := fun x hx => hnn x (List.mem_cons_of_mem _ hx)
    simp only [constructorLoop, exec_bind_apply, urDeviceRetain, retainNativeContext_apply,
      setBaseEvent_apply, hd, hi, if_false, exec_pure_apply]
    rw [ih (i + 1) _ (Nat.succ_ne_zero i) hr]
    simp [World.log, restCalls]

theorem constructorLoop_tail_ok (T : DeviceTable) (ev : CUevent) :
    ∀ (rest : List ur_device_handle_t) (i : Nat) (w : World), i ≠ 0 →
      (constructorLoop T rest i ev w).1 = .ok () → ∀ d ∈ rest, d ≠ nullptr := by
  intro rest
  induction rest with
  | nil => intro i w _ _ d hd; simp at hd
  | cons x rest ih =>
    intro i w hi h d hd
    by_cases hx : x = nullptr
    · simp [constructorLoop, urDeviceRetain, retainNativeContext_apply, hx] at h
    · simp only [constructorLoop, exec_bind_apply, urDeviceRetain, retainNativeContext_apply,
        setBaseEvent_apply, hx, hi, if_false, exec_pure_apply] at h
      rcases List.mem_cons.1 hd with rfl | hd
      · exact hx
      · exact ih (i + 1) _ (Nat.succ_ne_zero i) h d hd



theorem exec_bind_eq_ok {α β : Type} (x : Exec α) (f : α → Exec β) (w w' : World) (b : β) :
    (x >>= f) w = (.ok b, w') ↔ ∃ a v, x w = (.ok a, v) ∧ f a v = (.ok b, w') := by
  rw [exec_bind_apply]
  rcases hx : x w with ⟨r, v⟩
  cases r with
  | ok a =>
    constructor
    · intro h; exact ⟨a, v, rfl, h⟩
    · rintro ⟨a1, v1, h1, h2⟩
      obtain ⟨h3, h4⟩ := Prod.mk.inj h1
      cases h3; cases h4; exact h2
  | error e => simp

theorem exec_pure_eq_ok {α : Type} (a b : α) (w w' : World) :
    (Pure.pure a : Exec α) w = (.ok b, w') ↔ a = b ∧ w = w' := by
  simp [exec_pure_apply]

theorem urDeviceRetain_eq_ok (d : ur_device_handle_t) (w v : World) (a : Unit) :
    urDeviceRetain d w = (.ok a, v) ↔ v = w.log (.urDeviceRetain d) := by
  simp [urDeviceRetain, eq_comm]

theorem retainNativeContext_eq_ok (d : ur_device_handle_t) (w v : World) (a : Unit) :
    retainNativeContext d w = (.ok a, v) ↔ d ≠ nullptr ∧ v = w.log (.retainNativeContext d) := by
  rw [retainNativeContext_apply]
  by_cases h : d = nullptr <;> simp [h, eq_comm]

theorem setBaseEvent_eq_ok (d : ur_device_handle_t) (ev : CUevent) (w v : World) (a : Unit) :
    setBaseEvent d ev w = (.ok a, v) ↔
      d ≠ nullptr ∧ v = { w.log (.setBaseEvent d ev) with baseEvents := (d, ev) :: w.baseEvents } := by
  rw [setBaseEvent_apply]
  by_cases h : d = nullptr <;> simp [h, eq_comm]

theorem UR_CHECK_ERROR_eq_ok (r : CUresult) (w v : World) (a : Unit) :
    UR_CHECK_ERROR r w = (.ok a, v) ↔ r = CUDA_SUCCESS ∧ v = w := by
  rw [UR_CHECK_ERROR_apply]
  by_cases h : r = CUDA_SUCCESS <;> simp [h, eq_comm]

theorem setContext_eq_ok (Desired : CUcontext) (w v : World) (a : Unit) :
    ScopedContext.setContext Desired w = (.ok a, v) ↔
      w.nextResult = CUDA_SUCCESS ∧
      ((w.current = Desired ∧ v = w.advance .cuCtxGetCurrent) ∨
       (w.current ≠ Desired ∧ (w.advance .cuCtxGetCurrent).nextResult = CUDA_SUCCESS ∧
        v = { (w.advance .cuCtxGetCurrent).advance (.cuCtxSetCurrent Desired) with
              current := Desired })) := by
  rw [setContext_apply]
  by_cases h1 : w.nextResult = CUDA_SUCCESS
  · by_cases h2 : w.current = Desired
    · simp [h1, h2, eq_comm]
    · by_cases h3 : (w.advance .cuCtxGetCurrent).nextResult = CUDA_SUCCESS
      · simp [h1, h2, h3, eq_comm]
      · simp [h1, h2, h3]
  · simp [h1]

theorem ScopedContext_constructor_eq_ok (T : DeviceTable) (Device : ur_device_handle_t)
    (w v : World) (a : Unit) :
    ScopedContext.constructor T Device w = (.ok a, v) ↔
      Device ≠ nullptr ∧ ScopedContext.setContext (T.getNativeContext Device) w = (.ok a, v) := by
  rw [ScopedContext_constructor_apply]
  by_cases h : Device = nullptr <;> simp [h]

theorem cuEventCreate_eq_ok (ev0 : CUevent) (Flags : Nat) (w v : World) (p : CUresult × CUevent) :
    cuEventCreate ev0 Flags w = (.ok p, v) ↔
      p.1 = w.nextResult ∧
      ((w.nextResult = CUDA_SUCCESS ∧ p.2 = w.eventsCreated + 1 ∧
        v = { w.advance (.cuEventCreate w.current Flags) with
              eventsCreated := w.eventsCreated + 1 }) ∨
       (w.nextResult ≠ CUDA_SUCCESS ∧ p.2 = ev0 ∧
        v = w.advance (.cuEventCreate w.current Flags))) := by
  obtain ⟨r, e⟩ := p
  unfold cuEventCreate
  by_cases h : w.nextResult = CUDA_SUCCESS
  · simp [h, eq_comm, and_assoc]
  · simp [h, eq_comm, and_assoc]

theorem cuEventRecord_eq_ok (ev : CUevent) (s : Nat) (w v : World) (r : CUresult) :
    cuEventRecord ev s w = (.ok r, v) ↔
      r = w.nextResult ∧ v = w.advance (.cuEventRecord w.current ev s) := by
  simp [cuEventRecord, eq_comm]

theorem constructorLoop_tail_eq_ok (T : DeviceTable) (ev : CUevent)
    (rest : List ur_device_handle_t) (i : Nat) (w w' : World) (hi : i ≠ 0) :
    constructorLoop T rest i ev w = (.ok (), w') ↔
      (∀ d ∈ rest, d ≠ nullptr) ∧
      w' = { w with trace := w.trace ++ restCalls ev rest,
                    baseEvents := (rest.map fun d => (d, ev)).reverse ++ w.baseEvents } := by
  constructor
  · intro h
    have hnn := constructorLoop_tail_ok T ev rest i w hi (by rw [h])
    refine ⟨hnn, ?_⟩
    rw [constructorLoop_tail T ev rest i w hi hnn] at h
    exact (Prod.mk.inj h).2.symm
  · rintro ⟨hnn, rfl⟩
    exact constructorLoop_tail T ev rest i w hi hnn

theorem constructorLoop_head_ok (T : DeviceTable) (Dev : ur_device_handle_t)
    (rest : List ur_device_handle_t) (ev0 : CUevent) (w w' : World)
    (h : constructorLoop T (Dev :: rest) 0 ev0 w = (.ok (), w')) :
    Dev ≠ nullptr ∧ (∀ d ∈ rest, d ≠ nullptr) ∧
    w'.current = T.getNativeContext Dev ∧
    w'.eventsCreated = w.eventsCreated + 1 ∧
    w'.trace = w.trace ++ (firstCalls T w Dev ++ restCalls (w.eventsCreated + 1) rest) ∧
    w'.baseEvents = (rest.map fun d => (d, w.eventsCreated + 1)).reverse ++
        (Dev, w.eventsCreated + 1) :: w.baseEvents := by
  simp only [constructorLoop, if_true, exec_bind_eq_ok, exec_pure_eq_ok, urDeviceRetain_eq_ok,
    retainNativeContext_eq_ok, setBaseEvent_eq_ok, UR_CHECK_ERROR_eq_ok,
    ScopedContext_constructor_eq_ok, setContext_eq_ok, cuEventCreate_eq_ok,
    cuEventRecord_eq_ok, constructorLoop_tail_eq_ok T _ rest (0 + 1) _ _ (Nat.succ_ne_zero 0)] at h
  obtain ⟨_, v1, rfl, _, v2, ⟨hD, rfl⟩, _, v3, ⟨_, hr1, hctx⟩, p, v4, ⟨hp1, hev⟩, _, v5,
    ⟨hp2, rfl⟩, r2, v6, ⟨rfl, rfl⟩, _, v7, ⟨hr2, rfl⟩, ev, v8, ⟨rfl, rfl⟩, _, v9, ⟨_, rfl⟩,
    hnn, rfl⟩ := h
  refine ⟨hD, hnn, ?_⟩
  rw [hp2] at hp1
  rcases hev with ⟨_, hp, rfl⟩ | ⟨hne, _, _⟩
  · rcases hctx with ⟨hc, rfl⟩ | ⟨hc, _, rfl⟩
    · simp [hp, World.advance, World.log, firstCalls, ← hc]
    · have hc1 : ¬ w.current = T.getNativeContext Dev := hc
      simp [hp, World.advance, World.log, firstCalls, hc1]
  · exact absurd hp1.symm hne


theorem allSucceed_nextResult {w : World} (h : w.allSucceed) : w.nextResult = CUDA_SUCCESS := by
  unfold World.nextResult
  cases hr : w.results with
  | nil => rfl
  | cons r rs => exact h r (by rw [hr]; exact List.mem_cons_self _ _)

theorem allSucceed_log {w : World} (h : w.allSucceed) (c : Call) : (w.log c).allSucceed := h

theorem allSucceed_advance {w : World} (h : w.allSucceed) (c : Call) :
    (w.advance c).allSucceed :=
  fun r hr => h r (List.mem_of_mem_tail hr)

theorem setContext_of_allSucceed (Desired : CUcontext) {w : World} (h : w.allSucceed) :
    ∃ v, ScopedContext.setContext Desired w = (.ok (), v) ∧ v.allSucceed := by
  rw [setContext_apply]
  have h1 := allSucceed_nextResult h
  have h2 := allSucceed_nextResult (allSucceed_advance h .cuCtxGetCurrent)
  by_cases hc : w.current = Desired
  · exact ⟨w.advance .cuCtxGetCurrent, by simp [h1, hc], allSucceed_advance h _⟩
  · exact ⟨{ (w.advance .cuCtxGetCurrent).advance (.cuCtxSetCurrent Desired) with
              current := Desired }, by simp [h1, h2, hc],
      allSucceed_advance (allSucceed_advance h .cuCtxGetCurrent) (.cuCtxSetCurrent Desired)⟩

theorem constructorLoop_head_total (T : DeviceTable) (Dev : ur_device_handle_t)
    (rest : List ur_device_handle_t) (ev0 : CUevent) (w : World)
    (hD : Dev ≠ nullptr) (hnn : ∀ d ∈ rest, d ≠ nullptr) (hs : w.allSucceed) :
    ∃ w', constructorLoop T (Dev :: rest) 0 ev0 w = (.ok (), w') := by
  obtain ⟨v, hv, hvs⟩ := setContext_of_allSucceed (T.getNativeContext Dev)
    (allSucceed_log (allSucceed_log hs (.urDeviceRetain Dev)) (.retainNativeContext Dev))
  have h1 := allSucceed_nextResult hvs
  have h2 : ({ v.advance (.cuEventCreate v.current CU_EVENT_DEFAULT) with
      eventsCreated := v.eventsCreated + 1 } : World).nextResult = CUDA_SUCCESS :=
    allSucceed_nextResult (w := { v.advance (.cuEventCreate v.current CU_EVENT_DEFAULT) with
      eventsCreated := v.eventsCreated + 1 })
      (allSucceed_advance hvs (.cuEventCreate v.current CU_EVENT_DEFAULT))
  simp only [constructorLoop, if_true, exec_bind_apply, urDeviceRetain, retainNativeContext_apply,
    hD, if_false, ScopedContext_constructor_apply, hv, cuEventCreate, h1, UR_CHECK_ERROR_apply,
    cuEventRecord, exec_pure_apply, setBaseEvent_apply, h2]
  rw [constructorLoop_tail T _ rest (0 + 1) _ (Nat.succ_ne_zero 0) hnn]
  exact ⟨_, rfl⟩

/-! ## Auxiliary facts about the operations -/

theorem constructor_eq_ok (T : DeviceTable) (Devs : List ur_device_handle_t) (w w' : World)
    (self : ur_context_handle_t_) :
    ur_context_handle_t_.constructor T Devs w = (.ok self, w') ↔
      self = { Devices := Devs, RefCount := 1, ExtendedDeleters := [], PoolHandles := [] } ∧
      constructorLoop T Devs 0 nullptr w = (.ok (), w') := by
  simp only [ur_context_handle_t_.constructor, exec_bind_eq_ok, exec_pure_eq_ok]
  constructor
  · rintro ⟨_, v, h1, h2, rfl⟩
    exact ⟨h2.symm, h1⟩
  · rintro ⟨h1, h2⟩
    exact ⟨(), w', h2, h1.symm, rfl⟩

theorem constructorLoop_total (T : DeviceTable) (Devs : List ur_device_handle_t) (ev0 : CUevent)
    (w : World) (hnn : ∀ d ∈ Devs, d ≠ nullptr) (hs : w.allSucceed) :
    ∃ w', constructorLoop T Devs 0 ev0 w = (.ok (), w') := by
  cases Devs with
  | nil => exact ⟨w, rfl⟩
  | cons Dev rest =>
    exact constructorLoop_head_total T Dev rest ev0 w (hnn Dev (List.mem_cons_self _ _))
      (fun d hd => hnn d (List.mem_cons_of_mem _ hd)) hs

theorem std_find_of_mem (xs : List ur_device_handle_t) (d : ur_device_handle_t) (h : d ∈ xs) :
    std_find xs d < xs.length ∧ xs[std_find xs d]? = some d := by
  induction xs with
  | nil => simp at h
  | cons x xs ih =>
    by_cases hx : x = d
    · simp [std_find, hx]
    · have hd : d ∈ xs := by
        rcases List.mem_cons.1 h with h1 | h1
        · exact absurd h1.symm hx
        · exact h1
      obtain ⟨h1, h2⟩ := ih hd
      refine ⟨by simp [std_find, hx, h1], ?_⟩
      simp only [std_find, hx, if_false, List.getElem?_cons_succ]
      exact h2

theorem incrementReferenceCount_apply (self : ur_context_handle_t_) (w : World) :
    incrementReferenceCount self w =
      (.ok ((self.RefCount + 1) % 4294967296,
            { self with RefCount := (self.RefCount + 1) % 4294967296 }), w) := rfl

theorem decrementReferenceCount_apply (self : ur_context_handle_t_) (w : World) :
    decrementReferenceCount self w =
      (.ok ((4294967295 + self.RefCount) % 4294967296,
            { self with RefCount := (4294967295 + self.RefCount) % 4294967296 }), w) := rfl

theorem callTimes_succ (m : Method Nat) (K : Nat) (self : ur_context_handle_t_) (w : World) :
    callTimes m (K + 1) self w =
      match m self w with
      | (.ok p, w1) => callTimes m K p.2 w1
      | (.error e, w1) => (.error e, w1) := by
  simp only [callTimes, exec_bind_apply]
  rcases m self w with ⟨_ | ⟨_, _⟩, _⟩ <;> rfl

theorem callTimes_increment (K : Nat) : ∀ (self : ur_context_handle_t_) (w : World),
    self.RefCount < 4294967296 →
    callTimes incrementReferenceCount K self w =
      (.ok ((), { self with RefCount := (self.RefCount + K) % 4294967296 }), w) := by
  induction K with
  | zero =>
    intro self w h
    have e : (self.RefCount + 0) % 4294967296 = self.RefCount := by omega
    rw [e]; rfl
  | succ K ih =>
    intro self w h
    have hb : (self.RefCount + 1) % 4294967296 < 4294967296 := by omega
    have e : ((self.RefCount + 1) % 4294967296 + K) % 4294967296
        = (self.RefCount + (K + 1)) % 4294967296 := by omega
    rw [callTimes_succ, incrementReferenceCount_apply]
    show callTimes incrementReferenceCount K
      { self with RefCount := (self.RefCount + 1) % 4294967296 } w = _
    rw [ih { self with RefCount := (self.RefCount + 1) % 4294967296 } w hb]
    simp only [e]

theorem callTimes_decrement (K : Nat) : ∀ (self : ur_context_handle_t_) (w : World),
    self.RefCount < 4294967296 →
    callTimes decrementReferenceCount K self w =
      (.ok ((), { self with RefCount := (K * 4294967295 + self.RefCount) % 4294967296 }), w) := by
  induction K with
  | zero =>
    intro self w h
    have e : (0 * 4294967295 + self.RefCount) % 4294967296 = self.RefCount := by omega
    rw [e]; rfl
  | succ K ih =>
    intro self w h
    have hb : (4294967295 + self.RefCount) % 4294967296 < 4294967296 := by omega
    have e : (K * 4294967295 + (4294967295 + self.RefCount) % 4294967296) % 4294967296
        = ((K + 1) * 4294967295 + self.RefCount) % 4294967296 := by omega
    rw [callTimes_succ, decrementReferenceCount_apply]
    show callTimes decrementReferenceCount K
      { self with RefCount := (4294967295 + self.RefCount) % 4294967296 } w = _
    rw [ih { self with RefCount := (4294967295 + self.RefCount) % 4294967296 } w hb]
    simp only [e]

theorem deleter_data_call_apply (d : deleter_data) (w : World) :
    d.call w = if d.Function = nullptr then (.error .nullDereference, w)
      else (.ok (), w.log (deleterCall d)) := by
  by_cases h : d.Function = nullptr <;> simp [deleter_data.call, deref_apply, h, deleterCall]

theorem invokeLoop_apply (ds : List deleter_data) : ∀ (w : World),
    invokeLoop ds w =
      (if ds.all deleter_data.callable then .ok () else .error .nullDereference,
        { w with trace := w.trace ++ (ds.takeWhile deleter_data.callable).map deleterCall }) := by
  induction ds with
  | nil => intro w; simp [invokeLoop]
  | cons d ds ih =>
    intro w
    simp only [invokeLoop, exec_bind_apply, deleter_data_call_apply]
    by_cases h : d.Function = nullptr
    · simp [h, deleter_data.callable]
    · simp only [h, if_false, ih]
      simp [World.log, deleter_data.callable, h]

theorem invokeExtendedDeleters_apply (self : ur_context_handle_t_) (w : World) :
    invokeExtendedDeleters self w =
      (if self.ExtendedDeleters.all deleter_data.callable then .ok ((), self)
        else .error .nullDereference,
        { w with trace := w.trace ++
            (self.ExtendedDeleters.takeWhile deleter_data.callable).map deleterCall }) := by
  simp only [invokeExtendedDeleters, exec_bind_apply, invokeLoop_apply]
  by_cases h : self.ExtendedDeleters.all deleter_data.callable = true
  · simp [h]
  · simp [h]

theorem invokeExtendedDeleters_callable (self : ur_context_handle_t_) (w : World)
    (h : ∀ d ∈ self.ExtendedDeleters, d.Function ≠ nullptr) :
    invokeExtendedDeleters self w =
      (.ok ((), self), { w with trace := w.trace ++ self.ExtendedDeleters.map deleterCall }) := by
  have hall : self.ExtendedDeleters.all deleter_data.callable = true := by
    rw [List.all_eq_true]
    intro d hd
    simpa [deleter_data.callable] using h d hd
  have htw : self.ExtendedDeleters.takeWhile deleter_data.callable = self.ExtendedDeleters := by
    rw [List.takeWhile_eq_self_iff]
    intro d hd
    simpa [deleter_data.callable] using h d hd
  rw [invokeExtendedDeleters_apply, hall, htw]
  rfl

theorem invokeExtendedDeleters_eq_ok (self self1 : ur_context_handle_t_) (w w1 : World) (r : Unit)
    (h : invokeExtendedDeleters self w = (.ok (r, self1), w1)) : self1 = self := by
  rw [invokeExtendedDeleters_apply] at h
  by_cases hall : self.ExtendedDeleters.all deleter_data.callable = true
  · rw [if_pos hall] at h
    exact ((Prod.mk.inj (Except.ok.inj (Prod.mk.inj h).1)).2).symm
  · rw [if_neg hall] at h
    cases (Prod.mk.inj h).1

theorem registerAll_apply (ps : List (Nat × Nat)) : ∀ (self : ur_context_handle_t_) (w : World),
    registerAll ps self w =
      (.ok ((), { self with ExtendedDeleters :=
          (self.ExtendedDeleters ++ ps.map (fun p => ⟨p.1, p.2⟩)) }), w) := by
  induction ps with
  | nil => intro self w; simp [registerAll]
  | cons p ps ih =>
    intro self w
    simp only [registerAll, exec_bind_apply, setExtendedDeleter, exec_pure_apply, ih]
    simp

theorem filter_restCalls_isCuEventCreate (ev : CUevent) (rest : List ur_device_handle_t) :
    (restCalls ev rest).filter Call.isCuEventCreate = [] := by
  induction rest with
  | nil => rfl
  | cons d rest ih =>
    simp only [restCalls, List.flatMap_cons] at ih ⊢
    simp [List.filter_cons, Call.isCuEventCreate, ih]

theorem filter_restCalls_isCuEventRecord (ev : CUevent) (rest : List ur_device_handle_t) :
    (restCalls ev rest).filter Call.isCuEventRecord = [] := by
  induction rest with
  | nil => rfl
  | cons d rest ih =>
    simp only [restCalls, List.flatMap_cons] at ih ⊢
    simp [List.filter_cons, Call.isCuEventRecord, ih]

theorem filter_restCalls_isSetBaseEvent (ev : CUevent) (rest : List ur_device_handle_t) :
    (restCalls ev rest).filter Call.isSetBaseEvent = rest.map fun d => Call.setBaseEvent d ev := by
  induction rest with
  | nil => rfl
  | cons d rest ih =>
    simp only [restCalls, List.flatMap_cons] at ih ⊢
    simp [List.filter_cons, Call.isSetBaseEvent, ih]

theorem filter_restCalls_isRetain (ev : CUevent) (rest : List ur_device_handle_t) :
    (restCalls ev rest).filter Call.isRetain = retainCalls rest := by
  induction rest with
  | nil => rfl
  | cons d rest ih =>
    simp only [restCalls, retainCalls, List.flatMap_cons] at ih ⊢
    simp [List.filter_cons, Call.isRetain, ih]

theorem find_baseEvents (ev : CUevent) (d : ur_device_handle_t) :
    ∀ (l1 : List (ur_device_handle_t × CUevent)) (l2 : List (ur_device_handle_t × CUevent)),
      (∀ p ∈ l1, p.2 = ev) → (∃ p ∈ l1, p.1 = d) →
      ∃ p, (l1 ++ l2).find? (fun p => p.1 == d) = some p ∧ p.2 = ev := by
  intro l1
  induction l1 with
  | nil => intro l2 _ h; obtain ⟨p, hp, _⟩ := h; simp at hp
  | cons q l1 ih =>
    intro l2 hall hex
    by_cases hq : q.1 = d
    · exact ⟨q, by simp [List.find?_cons, hq], hall q (List.mem_cons_self _ _)⟩
    · have hex1 : ∃ p ∈ l1, p.1 = d := by
        obtain ⟨p, hp, hpd⟩ := hex
        rcases List.mem_cons.1 hp with rfl | hp
        · exact absurd hpd hq
        · exact ⟨p, hp, hpd⟩
      obtain ⟨p, hp1, hp2⟩ := ih l2 (fun p hp => hall p (List.mem_cons_of_mem _ hp)) hex1
      exact ⟨p, by simp [List.find?_cons, hq, hp1], hp2⟩

theorem ScopedContext_constructor_of_allSucceed (T : DeviceTable) (Device : ur_device_handle_t)
    {w : World} (hD : Device ≠ nullptr) (h : w.allSucceed) :
    ∃ v, ScopedContext.constructor T Device w = (.ok (), v) ∧ v.allSucceed := by
  rw [ScopedContext_constructor_apply, if_neg hD]
  exact setContext_of_allSucceed _ h

theorem nextResult_log (w : World) (c : Call) : (w.log c).nextResult = w.nextResult := rfl

theorem get_apply (T : DeviceTable) (Dev : ur_device_handle_t) (w : World) :
    get T Dev w = if Dev = nullptr then (.error .nullDereference, w) else (.ok (T.get Dev), w) := by
  by_cases h : Dev = nullptr <;> simp [get, deref_apply, h]

theorem destructorLoop_step (T : DeviceTable) (Dev : ur_device_handle_t)
    (rest : List ur_device_handle_t) (w : World) :
    destructorLoop T (Dev :: rest) w =
      if Dev = nullptr then (.error .nullDereference, w.log (.urDeviceRelease Dev))
      else if w.nextResult = CUDA_SUCCESS then
        destructorLoop T rest
          ((w.log (.urDeviceRelease Dev)).advance (.cuDevicePrimaryCtxRelease (T.get Dev)))
      else (.error (.native w.nextResult),
          (w.log (.urDeviceRelease Dev)).advance (.cuDevicePrimaryCtxRelease (T.get Dev))) := by
  simp only [destructorLoop, exec_bind_apply, urDeviceRelease, get_apply,
    cuDevicePrimaryCtxRelease, UR_CHECK_ERROR_apply, nextResult_log]
  by_cases hD : Dev = nullptr
  · simp [hD]
  · by_cases h1 : w.nextResult = CUDA_SUCCESS
    · simp [hD, h1, nextResult_log]
    · simp [hD, h1, nextResult_log]

theorem destructorLoop_ok (T : DeviceTable) (Devs : List ur_device_handle_t) :
    ∀ (w w' : World), destructorLoop T Devs w = (.ok (), w') →
      w'.trace = w.trace ++ releaseCalls T Devs := by
  induction Devs with
  | nil =>
    intro w w' h
    simp only [destructorLoop, exec_pure_apply] at h
    rw [← (Prod.mk.inj h).2]
    simp [releaseCalls]
  | cons Dev rest ih =>
    intro w w' h
    rw [destructorLoop_step] at h
    by_cases hD : Dev = nullptr
    · simp [hD] at h
    · by_cases h1 : w.nextResult = CUDA_SUCCESS
      · simp only [hD, h1, if_false, if_true] at h
        rw [ih _ _ h]
        simp [releaseCalls, World.log, World.advance]
      · simp [hD, h1] at h

theorem destructorLoop_total (T : DeviceTable) (Devs : List ur_device_handle_t) :
    ∀ (w : World), (∀ d ∈ Devs, d ≠ nullptr) → w.allSucceed →
      ∃ w', destructorLoop T Devs w = (.ok (), w') := by
  induction Devs with
  | nil => intro w _ _; exact ⟨w, rfl⟩
  | cons Dev rest ih =>
    intro w hnn hs
    rw [destructorLoop_step, if_neg (hnn Dev (List.mem_cons_self _ _)),
      if_pos (allSucceed_nextResult hs)]
    exact ih _ (fun d hd => hnn d (List.mem_cons_of_mem _ hd))
      (allSucceed_advance (allSucceed_log hs _) _)

theorem count_release_eq_count_retain (T : DeviceTable) (d : ur_device_handle_t)
    (Devs : List ur_device_handle_t) :
    (releaseCalls T Devs).count (.urDeviceRelease d) =
      (retainCalls Devs).count (.urDeviceRetain d) := by
  induction Devs with
  | nil => rfl
  | cons x Devs ih =>
    simp only [releaseCalls, retainCalls, List.flatMap_cons] at ih ⊢
    simp only [List.count_append, ih]
    by_cases hx : x = d <;> simp [List.count_cons, hx]

theorem count_ctxRelease_eq_countP_retain (T : DeviceTable) (c : CUdevice)
    (Devs : List ur_device_handle_t) :
    (releaseCalls T Devs).count (.cuDevicePrimaryCtxRelease c) =
      (retainCalls Devs).countP (Call.retainsNativeContextOf T c) := by
  induction Devs with
  | nil => rfl
  | cons x Devs ih =>
    simp only [releaseCalls, retainCalls, List.flatMap_cons] at ih ⊢
    simp only [List.count_append, List.countP_append, ih]
    by_cases hx : T.get x = c <;>
      simp [List.count_cons, List.countP_cons, Call.retainsNativeContextOf, hx]

theorem constructor_ok_nonnull (T : DeviceTable) (Devs : List ur_device_handle_t)
    (w w' : World) (h : constructorLoop T Devs 0 nullptr w = (.ok (), w')) :
    (∀ d ∈ Devs, d ≠ nullptr) ∧
    ∃ issued, w'.trace = w.trace ++ issued ∧ issued.filter Call.isRetain = retainCalls Devs := by
  cases Devs with
  | nil =>
    simp only [constructorLoop, exec_pure_apply] at h
    refine ⟨fun d hd => by simp at hd, [], ?_, rfl⟩
    rw [← (Prod.mk.inj h).2]; simp
  | cons Dev rest =>
    obtain ⟨hD, hnn, _, _, htr, _⟩ := constructorLoop_head_ok T Dev rest nullptr w w' h
    refine ⟨?_, _, htr, ?_⟩
    · intro d hd
      rcases List.mem_cons.1 hd with rfl | hd
      · exact hD
      · exact hnn d hd
    · rw [List.filter_append, filter_restCalls_isRetain]
      by_cases hc : w.current = T.getNativeContext Dev <;>
        simp [firstCalls, hc, List.filter_cons, Call.isRetain, retainCalls]

theorem callsNoDeleter_of_trace {α : Type} (x : Exec α)
    (h : ∀ w, (x w).2.trace = w.trace) : x.callsNoDeleter := by
  intro w
  exact ⟨[], by rw [h w]; simp, rfl⟩

theorem callsNoDeleter_of_call {α : Type} (x : Exec α) (c : World → Call)
    (hc : ∀ w, (c w).isDeleter = false)
    (h : ∀ w, (x w).2.trace = w.trace ++ [c w]) : x.callsNoDeleter := by
  intro w
  exact ⟨[c w], h w, by simp [List.filter_cons, hc w]⟩

theorem callsNoDeleter_pure {α : Type} (a : α) : (Pure.pure a : Exec α).callsNoDeleter :=
  callsNoDeleter_of_trace _ (fun _ => rfl)

theorem callsNoDeleter_throw {α : Type} (e : Failure) : (Exec.throw e : Exec α).callsNoDeleter :=
  callsNoDeleter_of_trace _ (fun _ => rfl)

theorem callsNoDeleter_bind {α β : Type} (x : Exec α) (f : α → Exec β)
    (hx : x.callsNoDeleter) (hf : ∀ a, (f a).callsNoDeleter) : (x >>= f).callsNoDeleter := by
  intro w
  obtain ⟨i1, h1, g1⟩ := hx w
  rw [exec_bind_apply]
  rcases hxw : x w with ⟨r, v⟩
  rw [hxw] at h1
  cases r with
  | error e => exact ⟨i1, h1, g1⟩
  | ok a =>
    obtain ⟨i2, h2, g2⟩ := hf a v
    refine ⟨i1 ++ i2, ?_, ?_⟩
    · show (f a v).2.trace = _
      rw [h2, h1, List.append_assoc]
    · rw [List.filter_append, g1, g2]; rfl

theorem callsNoDeleter_ite {α : Type} (c : Prop) [Decidable c] (x y : Exec α)
    (hx : x.callsNoDeleter) (hy : y.callsNoDeleter) :
    (if c then x else y).callsNoDeleter := by
  split
  · exact hx
  · exact hy

theorem callsNoDeleter_UR_CHECK_ERROR (r : CUresult) : (UR_CHECK_ERROR r).callsNoDeleter :=
  callsNoDeleter_ite _ _ _ (callsNoDeleter_pure _) (callsNoDeleter_throw _)

theorem callsNoDeleter_deref (Dev : ur_device_handle_t) : (deref Dev).callsNoDeleter :=
  callsNoDeleter_ite _ _ _ (callsNoDeleter_throw _) (callsNoDeleter_pure _)

theorem callsNoDeleter_setContext (Desired : CUcontext) :
    (ScopedContext.setContext Desired).callsNoDeleter := by
  unfold ScopedContext.setContext
  refine callsNoDeleter_bind _ _
    (callsNoDeleter_of_call _ (fun _ => .cuCtxGetCurrent) (fun _ => rfl) (fun _ => rfl)) ?_
  rintro ⟨Result, Original⟩
  refine callsNoDeleter_bind _ _ (callsNoDeleter_UR_CHECK_ERROR _) (fun _ => ?_)
  refine callsNoDeleter_ite _ _ _ ?_ (callsNoDeleter_pure _)
  refine callsNoDeleter_bind _ _ ?_ (fun _ => callsNoDeleter_UR_CHECK_ERROR _)
  refine callsNoDeleter_of_call _ (fun _ => .cuCtxSetCurrent Desired) (fun _ => rfl) ?_
  intro w
  unfold cuCtxSetCurrent
  dsimp only
  split <;> rfl

theorem callsNoDeleter_ScopedContext (T : DeviceTable) (Device : ur_device_handle_t) :
    (ScopedContext.constructor T Device).callsNoDeleter := by
  unfold ScopedContext.constructor
  refine callsNoDeleter_ite _ _ _ (callsNoDeleter_throw _) ?_
  refine callsNoDeleter_bind _ _ ?_ (fun _ => callsNoDeleter_setContext _)
  exact callsNoDeleter_bind _ _ (callsNoDeleter_deref _) (fun _ => callsNoDeleter_pure _)

theorem callsNoDeleter_retainNativeContext (Dev : ur_device_handle_t) :
    (retainNativeContext Dev).callsNoDeleter :=
  callsNoDeleter_bind _ _ (callsNoDeleter_deref _) (fun _ =>
    callsNoDeleter_of_call _ (fun _ => .retainNativeContext Dev) (fun _ => rfl) (fun _ => rfl))

theorem callsNoDeleter_setBaseEvent (Dev : ur_device_handle_t) (EvBase : CUevent) :
    (setBaseEvent Dev EvBase).callsNoDeleter :=
  callsNoDeleter_bind _ _ (callsNoDeleter_deref _) (fun _ =>
    callsNoDeleter_of_call _ (fun _ => .setBaseEvent Dev EvBase) (fun _ => rfl) (fun _ => rfl))

theorem callsNoDeleter_cuEventCreate (EvBase : CUevent) (Flags : Nat) :
    (cuEventCreate EvBase Flags).callsNoDeleter := by
  refine callsNoDeleter_of_call _ (fun w => .cuEventCreate w.current Flags) (fun _ => rfl) ?_
  intro w
  unfold cuEventCreate
  dsimp only
  split <;> rfl

theorem callsNoDeleter_constructorLoop (T : DeviceTable) :
    ∀ (Devs : List ur_device_handle_t) (i : Nat) (EvBase : CUevent),
      (constructorLoop T Devs i EvBase).callsNoDeleter := by
  intro Devs
  induction Devs with
  | nil => intro i EvBase; exact callsNoDeleter_pure _
  | cons Dev rest ih =>
    intro i EvBase
    unfold constructorLoop
    refine callsNoDeleter_bind _ _
      (callsNoDeleter_of_call _ (fun _ => .urDeviceRetain Dev) (fun _ => rfl) (fun _ => rfl))
      (fun _ => ?_)
    refine callsNoDeleter_bind _ _ (callsNoDeleter_retainNativeContext Dev) (fun _ => ?_)
    have hjp : ∀ ev : CUevent, (do
        setBaseEvent Dev ev
        constructorLoop T rest (i + 1) ev : Exec Unit).callsNoDeleter := fun ev =>
      callsNoDeleter_bind _ _ (callsNoDeleter_setBaseEvent Dev ev) (fun _ => ih _ _)
    dsimp only
    refine callsNoDeleter_ite _ _ _ ?_ ?_
    · refine callsNoDeleter_bind _ _ (callsNoDeleter_ScopedContext T Dev) (fun _ => ?_)
      refine callsNoDeleter_bind _ _ (callsNoDeleter_cuEventCreate _ _) ?_
      rintro ⟨Result, ev⟩
      refine callsNoDeleter_bind _ _ (callsNoDeleter_UR_CHECK_ERROR _) (fun _ => ?_)
      refine callsNoDeleter_bind _ _
        (callsNoDeleter_of_call _ (fun w => .cuEventRecord w.current ev 0) (fun _ => rfl)
          (fun _ => rfl)) (fun _ => ?_)
      refine callsNoDeleter_bind _ _ (callsNoDeleter_UR_CHECK_ERROR _) (fun _ => ?_)
      exact callsNoDeleter_bind _ _ (callsNoDeleter_pure _) (fun ev1 => hjp ev1)
    · exact callsNoDeleter_bind _ _ (callsNoDeleter_pure _) (fun ev1 => hjp ev1)

theorem callsNoDeleter_destructorLoop (T : DeviceTable) :
    ∀ (Devs : List ur_device_handle_t), (destructorLoop T Devs).callsNoDeleter := by
  intro Devs
  induction Devs with
  | nil => exact callsNoDeleter_pure _
  | cons Dev rest ih =>
    unfold destructorLoop
    refine callsNoDeleter_bind _ _
      (callsNoDeleter_of_call _ (fun _ => .urDeviceRelease Dev) (fun _ => rfl) (fun _ => rfl))
      (fun _ => ?_)
    refine callsNoDeleter_bind _ _
      (callsNoDeleter_bind _ _ (callsNoDeleter_deref _) (fun _ => callsNoDeleter_pure _))
      (fun dev => ?_)
    refine callsNoDeleter_bind _ _
      (callsNoDeleter_of_call _ (fun _ => .cuDevicePrimaryCtxRelease dev) (fun _ => rfl)
        (fun _ => rfl)) (fun _ => ?_)
    exact callsNoDeleter_bind _ _ (callsNoDeleter_UR_CHECK_ERROR _) (fun _ => ih)

theorem method_ok_of_pure {α : Type} (a : α) (s : ur_context_handle_t_) (w w' : World)
    (r : α) (s1 : ur_context_handle_t_)
    (h : (Pure.pure (a, s) : Exec (α × ur_context_handle_t_)) w = (.ok (r, s1), w')) :
    s1 = s := by
  rw [exec_pure_eq_ok] at h
  exact (Prod.mk.inj h.1).2.symm

theorem std_find_le (xs : List ur_device_handle_t) (d : ur_device_handle_t) :
    std_find xs d ≤ xs.length := by
  induction xs with
  | nil => simp [std_find]
  | cons x xs ih =>
    by_cases hx : x = d
    · simp [std_find, hx]
    · simp [std_find, hx, ih]

theorem std_find_least (xs : List ur_device_handle_t) (d : ur_device_handle_t) :
    ∀ j, j < std_find xs d → xs[j]? ≠ some d := by
  induction xs with
  | nil => intro j hj; simp [std_find] at hj
  | cons x xs ih =>
    intro j hj
    by_cases hx : x = d
    · simp [std_find, hx] at hj
    · simp only [std_find, hx, if_false] at hj
      cases j with
      | zero => simpa using hx
      | succ j =>
        simp only [List.getElem?_cons_succ]
        exact ih j (by omega)

theorem std_find_le_of_getElem (xs : List ur_device_handle_t) (d : ur_device_handle_t)
    (j : Nat) (h : xs[j]? = some d) : std_find xs d ≤ j := by
  by_contra hlt
  exact std_find_least xs d j (Nat.lt_of_not_le hlt) h

theorem getDeviceIndex_apply_of_mem (self : ur_context_handle_t_) (d : ur_device_handle_t)
    (w : World) (h : d ∈ self.Devices) :
    getDeviceIndex d self w = (.ok (std_find self.Devices d, self), w) := by
  have h1 := (std_find_of_mem self.Devices d h).1
  simp [getDeviceIndex, Nat.ne_of_lt h1]

theorem std_find_getElem_nodup (xs : List ur_device_handle_t) (hn : xs.Nodup) :
    ∀ i (hi : i < xs.length), std_find xs xs[i] = i := by
  induction xs with
  | nil => intro i hi; simp at hi
  | cons x xs ih =>
    intro i hi
    obtain ⟨hx, hn1⟩ := List.nodup_cons.1 hn
    cases i with
    | zero => simp [std_find]
    | succ i =>
      have hi1 : i < xs.length := by simpa using hi
      have hne : x ≠ xs[i] := fun e => hx (e ▸ List.getElem_mem hi1)
      simp only [List.getElem_cons_succ, std_find, hne, if_false]
      rw [ih hn1 i hi1]

theorem nodup_of_std_find_getElem (xs : List ur_device_handle_t)
    (h : ∀ i (hi : i < xs.length), std_find xs xs[i] = i) : xs.Nodup := by
  rw [List.nodup_iff_injective_get]
  intro a b hab
  have ha := h a.1 a.2
  have hb := h b.1 b.2
  have e : xs[a.1] = xs[b.1] := hab
  rw [e, hb] at ha
  exact Fin.ext ha.symm

/-- C1: a context that the constructor returns holds exactly the device handles passed, in
the order passed and with duplicates kept, and its reference count reads 1; and the
constructor does return one whenever no handle is null and every native call succeeds. -/
theorem constructor_devices_and_reference_count (T : DeviceTable)
    (Devs : List ur_device_handle_t) (w : World) :
    (∀ self w', ur_context_handle_t_.constructor T Devs w = (.ok self, w') →
      self.getDevices = Devs ∧ self.getDevices.length = Devs.length ∧
      self.getReferenceCount = 1) ∧
    ((∀ d ∈ Devs, d ≠ nullptr) → w.allSucceed →
      ∃ self w', ur_context_handle_t_.constructor T Devs w = (.ok self, w') ∧
        self.getDevices = Devs ∧ self.getReferenceCount = 1) := by
  constructor
  · intro self w' h
    obtain ⟨rfl, _⟩ := (constructor_eq_ok T Devs w w' self).1 h
    exact ⟨rfl, rfl, rfl⟩
  · intro hnn hs
    obtain ⟨w', hw'⟩ := constructorLoop_total T Devs nullptr w hnn hs
    exact ⟨_, w', (constructor_eq_ok T Devs w w' _).2 ⟨rfl, hw'⟩, rfl, rfl⟩

theorem constructor_devices_and_reference_count_witness :
    ∃ self w', ur_context_handle_t_.constructor sampleTable [1, 2, 1] sampleWorld = (.ok self, w') ∧
      self.getDevices = [1, 2, 1] ∧ self.getReferenceCount = 1 :=
  (constructor_devices_and_reference_count sampleTable [1, 2, 1] sampleWorld).2
    (by decide) (by simp [World.allSucceed, sampleWorld])

/-- C2: for a device that is a member of the device list, `getDeviceIndex` passes its
assertion and returns an index below the number of devices at which the list holds that
device; a second call returns the same index; the context and the world are unchanged. -/
theorem getDeviceIndex_of_member (self : ur_context_handle_t_) (hDevice : ur_device_handle_t)
    (w : World) (h : hDevice ∈ self.getDevices) :
    ∃ i, getDeviceIndex hDevice self w = (.ok (i, self), w) ∧
      i < self.getDevices.length ∧ self.getDevices[i]? = some hDevice ∧
      (do let (a, self1) ← getDeviceIndex hDevice self
          let (b, self2) ← getDeviceIndex hDevice self1
          pure (a, b, self2)) w = (.ok (i, i, self), w) := by
  obtain ⟨h1, h2⟩ := std_find_of_mem self.Devices hDevice h
  have h3 : getDeviceIndex hDevice self w = (.ok (std_find self.Devices hDevice, self), w) := by
    simp [getDeviceIndex, Nat.ne_of_lt h1]
  refine ⟨std_find self.Devices hDevice, h3, h1, h2, ?_⟩
  simp only [exec_bind_apply, h3, exec_pure_apply]

theorem getDeviceIndex_of_member_witness :
    ∃ i, getDeviceIndex 2 sampleContext sampleWorld = (.ok (i, sampleContext), sampleWorld) ∧
      i < sampleContext.getDevices.length ∧ sampleContext.getDevices[i]? = some 2 ∧
      (do let (a, self1) ← getDeviceIndex 2 sampleContext
          let (b, self2) ← getDeviceIndex 2 self1
          pure (a, b, self2)) sampleWorld = (.ok (i, i, sampleContext), sampleWorld) :=
  getDeviceIndex_of_member sampleContext 2 sampleWorld (by decide)

/-- C3: on a context whose count `c` is a 32-bit value, `K` increments followed by `K`
decrements leave the context as it was, so `getReferenceCount` reads `c` again; one
increment followed by one decrement returns `c`; and each of the two operations returns
the value `getReferenceCount` reads right after it. -/
theorem reference_count_round_trip (self : ur_context_handle_t_) (w : World) (K : Nat)
    (h : self.getReferenceCount < 2 ^ 32) :
    (∃ self2, (do let (_, self1) ← callTimes incrementReferenceCount K self
                  callTimes decrementReferenceCount K self1) w = (.ok ((), self2), w) ∧
        self2.getReferenceCount = self.getReferenceCount ∧ self2 = self) ∧
    (∃ a, (do let (a, self1) ← incrementReferenceCount self
              let (b, self2) ← decrementReferenceCount self1
              pure (a, b, self2)) w = (.ok (a, self.getReferenceCount, self), w)) ∧
    (∀ v self1 w1, incrementReferenceCount self w = (.ok (v, self1), w1) →
        self1.getReferenceCount = v) ∧
    (∀ v self1 w1, decrementReferenceCount self w = (.ok (v, self1), w1) →
        self1.getReferenceCount = v) := by
  have hc : self.RefCount < 4294967296 := by
    simpa [getReferenceCount] using h
  refine ⟨?_, ?_, ?_, ?_⟩
  · have hb : (self.RefCount + K) % 4294967296 < 4294967296 := by omega
    have e : (K * 4294967295 + (self.RefCount + K) % 4294967296) % 4294967296
        = self.RefCount := by omega
    refine ⟨self, ?_, rfl, rfl⟩
    rw [exec_bind_apply, callTimes_increment K self w hc]
    dsimp only
    rw [callTimes_decrement K { self with RefCount := (self.RefCount + K) % 4294967296 } w hb]
    dsimp only
    rw [e]
  · refine ⟨(self.RefCount + 1) % 4294967296, ?_⟩
    have e : (4294967295 + (self.RefCount + 1) % 4294967296) % 4294967296 = self.RefCount := by
      omega
    simp only [exec_bind_apply, incrementReferenceCount_apply, decrementReferenceCount_apply,
      exec_pure_apply, e, getReferenceCount]
  · intro v self1 w1 hv
    rw [incrementReferenceCount_apply] at hv
    obtain ⟨h1, _⟩ := Prod.mk.inj hv
    obtain ⟨h2, h3⟩ := Prod.mk.inj (Except.ok.inj h1)
    rw [← h3, ← h2]; rfl
  · intro v self1 w1 hv
    rw [decrementReferenceCount_apply] at hv
    obtain ⟨h1, _⟩ := Prod.mk.inj hv
    obtain ⟨h2, h3⟩ := Prod.mk.inj (Except.ok.inj h1)
    rw [← h3, ← h2]; rfl

theorem reference_count_round_trip_witness :
    (∃ self2, (do let (_, self1) ← callTimes incrementReferenceCount 100 sampleContext
                  callTimes decrementReferenceCount 100 self1) sampleWorld
          = (.ok ((), self2), sampleWorld) ∧
        self2.getReferenceCount = sampleContext.getReferenceCount ∧ self2 = sampleContext) ∧
    (∃ a, (do let (a, self1) ← incrementReferenceCount sampleContext
              let (b, self2) ← decrementReferenceCount self1
              pure (a, b, self2)) sampleWorld
          = (.ok (a, sampleContext.getReferenceCount, sampleContext), sampleWorld)) ∧
    (∀ v self1 w1, incrementReferenceCount sampleContext sampleWorld = (.ok (v, self1), w1) →
        self1.getReferenceCount = v) ∧
    (∀ v self1 w1, decrementReferenceCount sampleContext sampleWorld = (.ok (v, self1), w1) →
        self1.getReferenceCount = v) :=
  reference_count_round_trip sampleContext sampleWorld 100
    (by norm_num [getReferenceCount, sampleContext])

/-- C4: `setExtendedDeleter(f_1,u_1)`, ..., `setExtendedDeleter(f_n,u_n)` add their entries
after those already registered and call nothing. `invokeExtendedDeleters` then goes through
the registered entries in registration order and calls each with the user data registered
with it, equal pairs included, up to the first entry whose function pointer is null, where
the call through the null pointer ends it. So when every registered function pointer is
non-null, one invocation calls every registered entry exactly once, in registration order,
returns and leaves the context as it is, and a second invocation issues the same calls
again. Starting from a context with no registered entry, the calls of one invocation are
exactly `f_1(u_1)`, ..., `f_n(u_n)`. -/
theorem invokeExtendedDeleters_calls_registered (self : ur_context_handle_t_)
    (ps : List (Nat × Nat)) (w : World) :
    (∃ self1,
      registerAll ps self w = (.ok ((), self1), w) ∧
      self1.ExtendedDeleters = self.ExtendedDeleters ++
        ps.map (fun p => { Function := p.1, UserData := p.2 }) ∧
      invokeExtendedDeleters self1 w =
        (if self1.ExtendedDeleters.all deleter_data.callable then .ok ((), self1)
          else .error .nullDereference,
          { w with trace := w.trace ++
              (self1.ExtendedDeleters.takeWhile deleter_data.callable).map deleterCall }) ∧
      ((∀ d ∈ self.ExtendedDeleters, d.Function ≠ nullptr) → (∀ p ∈ ps, p.1 ≠ nullptr) →
        invokeExtendedDeleters self1 w =
          (.ok ((), self1), { w with trace := w.trace ++
            (self.ExtendedDeleters.map deleterCall ++ ps.map fun p => Call.deleter p.1 p.2) }) ∧
        (do let (_, self2) ← invokeExtendedDeleters self1
            invokeExtendedDeleters self2) w =
          (.ok ((), self1), { w with trace := w.trace ++
            (self.ExtendedDeleters.map deleterCall ++ ps.map fun p => Call.deleter p.1 p.2) ++
            (self.ExtendedDeleters.map deleterCall ++
              ps.map fun p => Call.deleter p.1 p.2) }))) ∧
    ((∀ p ∈ ps, p.1 ≠ nullptr) →
      ∃ self1,
        registerAll ps { self with ExtendedDeleters := [] } w = (.ok ((), self1), w) ∧
        invokeExtendedDeleters self1 w =
          (.ok ((), self1),
            { w with trace := w.trace ++ ps.map fun p => Call.deleter p.1 p.2 }) ∧
        (do let (_, self2) ← invokeExtendedDeleters self1
            invokeExtendedDeleters self2) w =
          (.ok ((), self1), { w with trace := w.trace ++
            (ps.map fun p => Call.deleter p.1 p.2) ++ ps.map fun p => Call.deleter p.1 p.2 })) := by
  have key : ∀ (s : ur_context_handle_t_) (v : World),
      (∀ d ∈ s.ExtendedDeleters, d.Function ≠ nullptr) → (∀ p ∈ ps, p.1 ≠ nullptr) →
      ∀ d ∈ s.ExtendedDeleters ++ ps.map (fun p => ({ Function := p.1, UserData := p.2 } :
          deleter_data)), d.Function ≠ nullptr := by
    intro s v hs hps d hd
    rcases List.mem_append.1 hd with h | h
    · exact hs d h
    · obtain ⟨p, hp, rfl⟩ := List.mem_map.1 h
      exact hps p hp
  refine ⟨⟨_, registerAll_apply ps self w, rfl, invokeExtendedDeleters_apply _ w, ?_⟩, ?_⟩
  · intro hself hps
    have h1 := invokeExtendedDeleters_callable
      { self with ExtendedDeleters := (self.ExtendedDeleters ++
          ps.map (fun p => ({ Function := p.1, UserData := p.2 } : deleter_data))) }
    have hnn := key self w hself hps
    refine ⟨?_, ?_⟩
    · rw [h1 w hnn]
      simp [List.map_append, deleterCall, Function.comp_def]
    · rw [exec_bind_apply, h1 w hnn]
      dsimp only
      rw [h1 _ hnn]
      simp [List.map_append, deleterCall, Function.comp_def]
  · intro hps
    have h1 := invokeExtendedDeleters_callable
      { self with ExtendedDeleters := ([] ++
          ps.map (fun p => ({ Function := p.1, UserData := p.2 } : deleter_data))) }
    have hnn := key { self with ExtendedDeleters := [] } w (by simp) hps
    refine ⟨_, registerAll_apply ps { self with ExtendedDeleters := [] } w, ?_, ?_⟩
    · rw [h1 w hnn]
      simp [deleterCall, Function.comp_def]
    · rw [exec_bind_apply, h1 w hnn]
      dsimp only
      rw [h1 _ hnn]
      simp [deleterCall, Function.comp_def]

theorem invokeExtendedDeleters_calls_registered_witness :
    (∃ self1,
      registerAll [(7, 70), (9, 90), (7, 70)] sampleContext sampleWorld
        = (.ok ((), self1), sampleWorld) ∧
      invokeExtendedDeleters self1 sampleWorld =
        (.ok ((), self1), { sampleWorld with trace := sampleWorld.trace ++
          (sampleContext.ExtendedDeleters.map deleterCall ++
            ([(7, 70), (9, 90), (7, 70)] : List (Nat × Nat)).map
              fun p => Call.deleter p.1 p.2) })) ∧
    (∃ self1,
      registerAll [(7, 70), (9, 90), (7, 70)] { sampleContext with ExtendedDeleters := [] }
          sampleWorld
        = (.ok ((), self1), sampleWorld) ∧
      invokeExtendedDeleters self1 sampleWorld =
        (.ok ((), self1), { sampleWorld with trace := sampleWorld.trace ++
          ([(7, 70), (9, 90), (7, 70)] : List (Nat × Nat)).map fun p => Call.deleter p.1 p.2 }) ∧
      (do let (_, self2) ← invokeExtendedDeleters self1
          invokeExtendedDeleters self2) sampleWorld =
        (.ok ((), self1), { sampleWorld with trace := sampleWorld.trace ++
          (([(7, 70), (9, 90), (7, 70)] : List (Nat × Nat)).map fun p => Call.deleter p.1 p.2) ++
          ([(7, 70), (9, 90), (7, 70)] : List (Nat × Nat)).map fun p => Call.deleter p.1 p.2 })) := by
  obtain ⟨self1, h1, _, _, h2⟩ :=
    (invokeExtendedDeleters_calls_registered sampleContext [(7, 70), (9, 90), (7, 70)]
      sampleWorld).1
  exact ⟨⟨self1, h1, (h2 (by decide) (by decide)).1⟩,
    (invokeExtendedDeleters_calls_registered sampleContext [(7, 70), (9, 90), (7, 70)]
      sampleWorld).2 (by decide)⟩

/-- C5: a construction over at least one device that returns creates exactly one native
event: among the calls it issues there is one `cuEventCreate` and one `cuEventRecord` of
the created event on the default stream, both with the native context of the first device
current, and `setBaseEvent` is called once per list entry, in list order, each time with
that same event, so that afterwards every device of the list holds it as base event. -/
theorem constructor_shares_one_base_event (T : DeviceTable) (Dev : ur_device_handle_t)
    (rest : List ur_device_handle_t) (w w' : World) (self : ur_context_handle_t_)
    (h : ur_context_handle_t_.constructor T (Dev :: rest) w = (.ok self, w')) :
    ∃ issued, w'.trace = w.trace ++ issued ∧
      issued.filter Call.isCuEventCreate =
        [Call.cuEventCreate (T.getNativeContext Dev) CU_EVENT_DEFAULT] ∧
      issued.filter Call.isCuEventRecord =
        [Call.cuEventRecord (T.getNativeContext Dev) (w.eventsCreated + 1) 0] ∧
      issued.filter Call.isSetBaseEvent =
        (Dev :: rest).map (fun d => Call.setBaseEvent d (w.eventsCreated + 1)) ∧
      w'.eventsCreated = w.eventsCreated + 1 ∧
      ∀ d ∈ self.getDevices, w'.getBaseEvent d = w.eventsCreated + 1 := by
  obtain ⟨rfl, hl⟩ := (constructor_eq_ok T (Dev :: rest) w w' self).1 h
  obtain ⟨_, _, _, hev, htr, hbase⟩ := constructorLoop_head_ok T Dev rest nullptr w w' hl
  refine ⟨_, htr, ?_, ?_, ?_, hev, ?_⟩
  · rw [List.filter_append, filter_restCalls_isCuEventCreate]
    by_cases hc : w.current = T.getNativeContext Dev <;>
      simp [firstCalls, hc, List.filter_cons, Call.isCuEventCreate]
  · rw [List.filter_append, filter_restCalls_isCuEventRecord]
    by_cases hc : w.current = T.getNativeContext Dev <;>
      simp [firstCalls, hc, List.filter_cons, Call.isCuEventRecord]
  · rw [List.filter_append, filter_restCalls_isSetBaseEvent]
    by_cases hc : w.current = T.getNativeContext Dev <;>
      simp [firstCalls, hc, List.filter_cons, Call.isSetBaseEvent]
  · intro d hd
    have hd1 : d ∈ Dev :: rest := hd
    have key := find_baseEvents (w.eventsCreated + 1) d
      ((rest.map fun d => (d, w.eventsCreated + 1)).reverse ++ [(Dev, w.eventsCreated + 1)])
      w.baseEvents
      (by
        intro p hp
        simp only [List.mem_append, List.mem_reverse, List.mem_map, List.mem_singleton] at hp
        rcases hp with ⟨x, _, rfl⟩ | rfl <;> rfl)
      (by
        rcases List.mem_cons.1 hd1 with rfl | hr
        · exact ⟨(d, w.eventsCreated + 1), by simp, rfl⟩
        · exact ⟨(d, w.eventsCreated + 1), by simp [hr], rfl⟩)
    obtain ⟨p, hp1, hp2⟩ := key
    unfold World.getBaseEvent
    rw [hbase]
    simp only [List.append_assoc, List.singleton_append] at hp1
    rw [hp1]
    exact hp2

theorem constructor_shares_one_base_event_witness :
    ∃ issued, sampleConstructed.trace = sampleWorld.trace ++ issued ∧
      issued.filter Call.isCuEventCreate =
        [Call.cuEventCreate (sampleTable.getNativeContext 1) CU_EVENT_DEFAULT] ∧
      issued.filter Call.isCuEventRecord =
        [Call.cuEventRecord (sampleTable.getNativeContext 1) (sampleWorld.eventsCreated + 1) 0] ∧
      issued.filter Call.isSetBaseEvent =
        ([1, 2, 1] : List ur_device_handle_t).map
          (fun d => Call.setBaseEvent d (sampleWorld.eventsCreated + 1)) ∧
      sampleConstructed.eventsCreated = sampleWorld.eventsCreated + 1 ∧
      ∀ d ∈ sampleFresh.getDevices,
        sampleConstructed.getBaseEvent d = sampleWorld.eventsCreated + 1 :=
  constructor_shares_one_base_event sampleTable 1 [2, 1] sampleWorld sampleConstructed
    sampleFresh (by decide)

/-- C6: when `cuCtxGetCurrent` succeeds, constructing a `ScopedContext` for the target
`Tgt` on a thread whose current native context is `C` issues `cuCtxGetCurrent` and then no
`cuCtxSetCurrent` if `C = Tgt`, exactly one `cuCtxSetCurrent(Tgt)` if `C ≠ Tgt`; after a
construction that returns, the current native context is `Tgt`; the destructor returns,
issues no call and leaves the world, so the current context, as it is. The constructor
from a non-null device handle is the one for the native context of that device. -/
theorem scopedContext_sets_current_once (Tgt : CUcontext) (w : World)
    (h : (cuCtxGetCurrent nullptr w).1 = .ok (CUDA_SUCCESS, w.current)) :
    (ScopedContext.constructorNative Tgt w).2.trace =
      w.trace ++ Call.cuCtxGetCurrent ::
        (if w.current = Tgt then [] else [Call.cuCtxSetCurrent Tgt]) ∧
    (w.current = Tgt →
      ScopedContext.constructorNative Tgt w = (.ok (), w.advance .cuCtxGetCurrent)) ∧
    (∀ v, ScopedContext.constructorNative Tgt w = (.ok (), v) →
      v.current = Tgt ∧ ScopedContext.destructor v = (.ok (), v) ∧
      (ScopedContext.destructor v).2.current = Tgt) ∧
    (∀ (T : DeviceTable) (Device : ur_device_handle_t), Device ≠ nullptr →
      ScopedContext.constructor T Device w =
        ScopedContext.constructorNative (T.getNativeContext Device) w) := by
  have h1 : w.nextResult = CUDA_SUCCESS := by
    simp only [cuCtxGetCurrent] at h
    exact (Prod.mk.inj (Except.ok.inj h)).1
  refine ⟨?_, ?_, ?_, ?_⟩
  · simp only [ScopedContext.constructorNative, setContext_apply, h1, if_true]
    by_cases hc : w.current = Tgt
    · simp [hc, World.advance]
    · by_cases h2 : (w.advance .cuCtxGetCurrent).nextResult = CUDA_SUCCESS
      · simp only [hc, h2, if_false, if_true]
        simp [World.advance]
      · simp only [hc, h2, if_false]
        simp [World.advance]
  · intro hc
    simp [ScopedContext.constructorNative, setContext_apply, h1, hc]
  · intro v hv
    have : v.current = Tgt := by
      simp only [ScopedContext.constructorNative, setContext_eq_ok] at hv
      rcases hv.2 with ⟨hc, rfl⟩ | ⟨_, _, rfl⟩
      · exact hc
      · rfl
    exact ⟨this, rfl, this⟩
  · intro T Device hD
    simp [ScopedContext_constructor_apply, hD, ScopedContext.constructorNative]

theorem scopedContext_sets_current_once_witness :
    (ScopedContext.constructorNative 101 sampleWorld).2.trace =
      sampleWorld.trace ++ Call.cuCtxGetCurrent ::
        (if sampleWorld.current = 101 then [] else [Call.cuCtxSetCurrent 101]) ∧
    (sampleWorld.current = 101 →
      ScopedContext.constructorNative 101 sampleWorld =
        (.ok (), sampleWorld.advance .cuCtxGetCurrent)) ∧
    (∀ v, ScopedContext.constructorNative 101 sampleWorld = (.ok (), v) →
      v.current = 101 ∧ ScopedContext.destructor v = (.ok (), v) ∧
      (ScopedContext.destructor v).2.current = 101) ∧
    (∀ (T : DeviceTable) (Device : ur_device_handle_t), Device ≠ nullptr →
      ScopedContext.constructor T Device sampleWorld =
        ScopedContext.constructorNative (T.getNativeContext Device) sampleWorld) :=
  scopedContext_sets_current_once 101 sampleWorld (by decide)

/-- C7: what the constructor does on a device list that holds a null pointer. With the
null pointer first it calls `urDeviceRetain(nullptr)` and then makes the member call
`Dev->retainNativeContext()` through the null pointer, before the null check of
`ScopedContext` is reached; with the null pointer second it has by then retained the
first device, set the current native context, created and recorded the event and set the
base event of the first device. In neither case is the outcome
`UR_RESULT_ERROR_INVALID_DEVICE` with no call issued. -/
theorem constructor_null_device_issues_calls :
    (∀ (T : DeviceTable) (rest : List ur_device_handle_t) (w : World),
      ur_context_handle_t_.constructor T (nullptr :: rest) w =
        (.error .nullDereference, w.log (.urDeviceRetain nullptr))) ∧
    ur_context_handle_t_.constructor sampleTable [nullptr] sampleWorld =
      (.error .nullDereference, { sampleWorld with trace := [.urDeviceRetain nullptr] }) ∧
    ur_context_handle_t_.constructor sampleTable [1, nullptr] sampleWorld =
      (.error .nullDereference,
        { current := 101, results := [], eventsCreated := 1, baseEvents := [(1, 1)],
          trace := [.urDeviceRetain 1, .retainNativeContext 1, .cuCtxGetCurrent,
            .cuCtxSetCurrent 101, .cuEventCreate 101 0, .cuEventRecord 101 1 0,
            .setBaseEvent 1 1, .urDeviceRetain nullptr] }) := by
  refine ⟨?_, by decide, by decide⟩
  intro T rest w
  simp [ur_context_handle_t_.constructor, constructorLoop, urDeviceRetain,
    retainNativeContext_apply]

/-- C8: when the native calls succeed, constructing a `ScopedContext` from a device handle
fails with `UR_RESULT_ERROR_INVALID_DEVICE` exactly when the handle is null; for a null
handle it fails so with the world as it was: no `cuCtxGetCurrent`, no `cuCtxSetCurrent`,
and the current native context unchanged. -/
theorem scopedContext_invalid_device_iff_null (T : DeviceTable) (Device : ur_device_handle_t)
    (w : World) (hs : w.allSucceed) :
    ((ScopedContext.constructor T Device w).1 = .error .UR_RESULT_ERROR_INVALID_DEVICE ↔
      Device = nullptr) ∧
    (Device = nullptr →
      ScopedContext.constructor T Device w = (.error .UR_RESULT_ERROR_INVALID_DEVICE, w) ∧
      (ScopedContext.constructor T Device w).2.trace = w.trace ∧
      (ScopedContext.constructor T Device w).2.current = w.current) := by
  have hnull : Device = nullptr →
      ScopedContext.constructor T Device w = (.error .UR_RESULT_ERROR_INVALID_DEVICE, w) := by
    intro hD
    rw [ScopedContext_constructor_apply, if_pos hD]
  refine ⟨⟨?_, fun hD => by rw [hnull hD]⟩, fun hD => ⟨hnull hD, by rw [hnull hD], by rw [hnull hD]⟩⟩
  intro he
  by_contra hD
  obtain ⟨v, hv, _⟩ := ScopedContext_constructor_of_allSucceed T Device hD hs
  rw [hv] at he
  cases he

theorem scopedContext_invalid_device_iff_null_witness :
    ((ScopedContext.constructor sampleTable nullptr sampleWorld).1 =
        .error .UR_RESULT_ERROR_INVALID_DEVICE ↔ nullptr = nullptr) ∧
    (nullptr = nullptr →
      ScopedContext.constructor sampleTable nullptr sampleWorld =
        (.error .UR_RESULT_ERROR_INVALID_DEVICE, sampleWorld) ∧
      (ScopedContext.constructor sampleTable nullptr sampleWorld).2.trace = sampleWorld.trace ∧
      (ScopedContext.constructor sampleTable nullptr sampleWorld).2.current =
        sampleWorld.current) :=
  scopedContext_invalid_device_iff_null sampleTable nullptr sampleWorld
    (by simp [World.allSucceed, sampleWorld])

/-- C9: a construction that returns, followed by a destruction that returns, is balanced:
the retains the constructor issues are one `urDeviceRetain` and one `retainNativeContext`
per list entry, in list order; the calls the destructor issues are one `urDeviceRelease`
and one `cuDevicePrimaryCtxRelease` on the native device per list entry, in list order; so
every device is released as often as it was retained, and every native device has its
primary context released as often as it was retained. The destructor does return when
every native call succeeds. -/
theorem constructor_destructor_balanced (T : DeviceTable) (Devs : List ur_device_handle_t)
    (w w1 w2 w3 : World) (self : ur_context_handle_t_)
    (hc : ur_context_handle_t_.constructor T Devs w = (.ok self, w1))
    (hd : destructor T self w2 = (.ok (), w3)) :
    ∃ issued, w1.trace = w.trace ++ issued ∧
      issued.filter Call.isRetain = retainCalls Devs ∧
      w3.trace = w2.trace ++ releaseCalls T Devs ∧
      (∀ d, (releaseCalls T Devs).count (.urDeviceRelease d) =
              issued.count (.urDeviceRetain d)) ∧
      (∀ c, (releaseCalls T Devs).count (.cuDevicePrimaryCtxRelease c) =
              issued.countP (Call.retainsNativeContextOf T c)) ∧
      (∀ v, v.allSucceed → ∃ v', destructor T self v = (.ok (), v')) := by
  obtain ⟨rfl, hl⟩ := (constructor_eq_ok T Devs w w1 self).1 hc
  obtain ⟨hnn, issued, htr, hret⟩ := constructor_ok_nonnull T Devs w w1 hl
  refine ⟨issued, htr, hret, destructorLoop_ok T Devs w2 w3 hd, ?_, ?_, ?_⟩
  · intro d
    rw [count_release_eq_count_retain, ← hret]
    simp only [List.count_eq_countP, List.countP_filter]
    congr 1
    funext c
    cases c <;> simp [Call.isRetain]
  · intro c
    rw [count_ctxRelease_eq_countP_retain, ← hret, List.countP_filter]
    congr 1
    funext c
    cases c <;> simp [Call.isRetain, Call.retainsNativeContextOf]
  · intro v hv
    exact destructorLoop_total T Devs v hnn hv

theorem constructor_destructor_balanced_witness :
    ∃ issued, sampleConstructed.trace = sampleWorld.trace ++ issued ∧
      issued.filter Call.isRetain = retainCalls [1, 2, 1] ∧
      sampleDestroyed.trace = sampleConstructed.trace ++ releaseCalls sampleTable [1, 2, 1] ∧
      (∀ d, (releaseCalls sampleTable [1, 2, 1]).count (.urDeviceRelease d) =
              issued.count (.urDeviceRetain d)) ∧
      (∀ c, (releaseCalls sampleTable [1, 2, 1]).count (.cuDevicePrimaryCtxRelease c) =
              issued.countP (Call.retainsNativeContextOf sampleTable c)) ∧
      (∀ v, v.allSucceed → ∃ v', destructor sampleTable sampleFresh v = (.ok (), v')) :=
  constructor_destructor_balanced sampleTable [1, 2, 1] sampleWorld sampleConstructed
    sampleConstructed sampleDestroyed sampleFresh (by decide) (by decide)

/-- C10: `incrementReferenceCount` and `decrementReferenceCount` return, change no member
but the reference count and leave the world as it is: no native call, no device release
and no deleter callback is issued; a decrement from 1 returns 0 and does the same. -/
theorem reference_count_ops_change_only_count (self : ur_context_handle_t_) (w : World) :
    (∃ v self1, incrementReferenceCount self w = (.ok (v, self1), w) ∧
      self1.Devices = self.Devices ∧ self1.ExtendedDeleters = self.ExtendedDeleters ∧
      self1.PoolHandles = self.PoolHandles ∧ self1 = { self with RefCount := v }) ∧
    (∃ v self1, decrementReferenceCount self w = (.ok (v, self1), w) ∧
      self1.Devices = self.Devices ∧ self1.ExtendedDeleters = self.ExtendedDeleters ∧
      self1.PoolHandles = self.PoolHandles ∧ self1 = { self with RefCount := v }) ∧
    (self.RefCount = 1 →
      decrementReferenceCount self w = (.ok (0, { self with RefCount := 0 }), w)) := by
  refine ⟨⟨_, _, rfl, rfl, rfl, rfl, rfl⟩, ⟨_, _, rfl, rfl, rfl, rfl, rfl⟩, ?_⟩
  intro h
  simp [decrementReferenceCount, h]

theorem reference_count_ops_change_only_count_witness :
    decrementReferenceCount sampleContext sampleWorld =
      (.ok (0, { sampleContext with RefCount := 0 }), sampleWorld) :=
  (reference_count_ops_change_only_count sampleContext sampleWorld).2.2 (by decide)

/-- C11: no operation other than `invokeExtendedDeleters` calls a registered deleter. For
every context, with any number of registered deleters, and every world: the constructor,
the destructor, `setExtendedDeleter`, `getDeviceIndex`, `incrementReferenceCount`,
`decrementReferenceCount`, `addPool`, `removePool` and `getOwningURPool` add no callback
invocation to the trace, however they end; a destruction that returns adds exactly the
release calls of the devices. (`getDevices` and `getReferenceCount` only read the
object.) -/
theorem deleters_called_by_invoke_only (T : DeviceTable) (Devs : List ur_device_handle_t)
    (self : ur_context_handle_t_) (Function UserData : Nat) (hDevice : ur_device_handle_t)
    (Pool : ur_usm_pool_handle_t) (nativePool : ur_usm_pool_handle_t → Nat) (UMFPool : Nat) :
    (ur_context_handle_t_.constructor T Devs).callsNoDeleter ∧
    (destructor T self).callsNoDeleter ∧
    (∀ w w', destructor T self w = (.ok (), w') →
      w'.trace = w.trace ++ releaseCalls T self.Devices ∧
      (releaseCalls T self.Devices).filter Call.isDeleter = []) ∧
    (setExtendedDeleter Function UserData self).callsNoDeleter ∧
    (getDeviceIndex hDevice self).callsNoDeleter ∧
    (incrementReferenceCount self).callsNoDeleter ∧
    (decrementReferenceCount self).callsNoDeleter ∧
    (addPool Pool self).callsNoDeleter ∧
    (removePool Pool self).callsNoDeleter ∧
    (getOwningURPool nativePool UMFPool self).callsNoDeleter := by
  refine ⟨?_, callsNoDeleter_destructorLoop T self.Devices, ?_, callsNoDeleter_pure _, ?_,
    callsNoDeleter_pure _, callsNoDeleter_pure _, callsNoDeleter_pure _, callsNoDeleter_pure _,
    callsNoDeleter_pure _⟩
  · exact callsNoDeleter_bind _ _ (callsNoDeleter_constructorLoop T Devs 0 nullptr)
      (fun _ => callsNoDeleter_pure _)
  · intro w w' h
    obtain ⟨issued, h1, h2⟩ := callsNoDeleter_destructorLoop T self.Devices w
    have h3 := destructorLoop_ok T self.Devices w w' h
    refine ⟨h3, ?_⟩
    have : destructorLoop T self.Devices w = (.ok (), w') := h
    rw [this, h3] at h1
    rw [List.append_cancel_left h1]
    exact h2
  · exact callsNoDeleter_ite _ _ _ (callsNoDeleter_pure _) (callsNoDeleter_throw _)

/-- C12: when one of the driver calls the constructor issues for its first device
(`cuCtxGetCurrent`, `cuCtxSetCurrent`, `cuEventCreate`, `cuEventRecord`) reports a failure,
construction fails with the first failing result and stops there: the calls issued are an
initial part of those of the first device, the only retains among them are the
`urDeviceRetain` and `retainNativeContext` of the first device, `setBaseEvent` is called
on no device, and no release is issued. -/
theorem constructor_native_failure_aborts (T : DeviceTable) (Dev : ur_device_handle_t)
    (rest : List ur_device_handle_t) (w : World) (hD : Dev ≠ nullptr)
    (hfail : ∃ r ∈ w.results.take (nativeCallCount T w Dev), r ≠ CUDA_SUCCESS) :
    ∃ r issued w',
      ur_context_handle_t_.constructor T (Dev :: rest) w = (.error (.native r), w') ∧
      r ≠ CUDA_SUCCESS ∧ w.results.find? (fun x => x != CUDA_SUCCESS) = some r ∧
      w'.trace = w.trace ++ issued ∧
      issued <+: (firstCalls T w Dev).dropLast ∧
      issued.filter Call.isRetain = [.urDeviceRetain Dev, .retainNativeContext Dev] ∧
      issued.filter Call.isSetBaseEvent = [] ∧
      issued.filter Call.isRelease = [] := by
  obtain ⟨cur, results, ec, be, tr⟩ := w
  obtain ⟨r, hr, hne⟩ := hfail
  simp only [ur_context_handle_t_.constructor, constructorLoop, if_true, exec_bind_apply,
    urDeviceRetain, retainNativeContext_apply, hD, if_false, ScopedContext_constructor_apply,
    setContext_apply, cuEventCreate, cuEventRecord, UR_CHECK_ERROR_apply, World.nextResult,
    World.log, World.advance, nativeCallCount, firstCalls] at hr ⊢
  have hz : CUDA_SUCCESS = 0 := rfl
  by_cases hc : cur = T.getNativeContext Dev
  · simp only [hc, if_true] at hr ⊢
    rcases results with _ | ⟨r1, t1⟩
    · simp at hr
    by_cases h1 : r1 = CUDA_SUCCESS
    swap
    · refine ⟨r1, _, _, by simp [hc, h1]; rfl, h1, by simp [hc, h1], rfl, ?_, ?_, ?_, ?_⟩
      · simp [hc, h1]
      · simp [List.filter_cons, Call.isRetain]
      · simp [List.filter_cons, Call.isSetBaseEvent]
      · simp [List.filter_cons, Call.isRelease]
    rcases t1 with _ | ⟨r2, t2⟩
    · simp [h1] at hr
      exact absurd hr hne
    by_cases h2 : r2 = CUDA_SUCCESS
    swap
    · refine ⟨r2, _, _, by simp [hc, h1, h2]; rfl, h2, by simp [hc, h1, h2], rfl, ?_, ?_, ?_, ?_⟩
      · simp [hc, h1, h2]
      · simp [List.filter_cons, Call.isRetain]
      · simp [List.filter_cons, Call.isSetBaseEvent]
      · simp [List.filter_cons, Call.isRelease]
    rcases t2 with _ | ⟨r3, t3⟩
    · simp [h1, h2] at hr
      exact absurd hr hne
    by_cases h3 : r3 = CUDA_SUCCESS
    swap
    · refine ⟨r3, _, _, by simp [hc, h1, h2, h3]; rfl, h3, by simp [hc, h1, h2, h3], rfl, ?_, ?_, ?_, ?_⟩
      · simp [hc, h1, h2, h3]
      · simp [List.filter_cons, Call.isRetain]
      · simp [List.filter_cons, Call.isSetBaseEvent]
      · simp [List.filter_cons, Call.isRelease]
    simp [h1, h2, h3] at hr
    exact absurd hr hne
  · simp only [hc, if_false] at hr ⊢
    rcases results with _ | ⟨r1, t1⟩
    · simp at hr
    by_cases h1 : r1 = CUDA_SUCCESS
    swap
    · refine ⟨r1, _, _, by simp [hc, h1]; rfl, h1, by simp [hc, h1], rfl, ?_, ?_, ?_, ?_⟩
      · simp [hc, h1]
      · simp [List.filter_cons, Call.isRetain]
      · simp [List.filter_cons, Call.isSetBaseEvent]
      · simp [List.filter_cons, Call.isRelease]
    rcases t1 with _ | ⟨r2, t2⟩
    · simp [h1] at hr
      exact absurd hr hne
    by_cases h2 : r2 = CUDA_SUCCESS
    swap
    · refine ⟨r2, _, _, by simp [hc, h1, h2]; rfl, h2, by simp [hc, h1, h2], rfl, ?_, ?_, ?_, ?_⟩
      · simp [hc, h1, h2]
      · simp [List.filter_cons, Call.isRetain]
      · simp [List.filter_cons, Call.isSetBaseEvent]
      · simp [List.filter_cons, Call.isRelease]
    rcases t2 with _ | ⟨r3, t3⟩
    · simp [h1, h2] at hr
      exact absurd hr hne
    by_cases h3 : r3 = CUDA_SUCCESS
    swap
    · refine ⟨r3, _, _, by simp [hc, h1, h2, h3]; rfl, h3, by simp [hc, h1, h2, h3], rfl, ?_, ?_, ?_, ?_⟩
      · simp [hc, h1, h2, h3]
      · simp [List.filter_cons, Call.isRetain]
      · simp [List.filter_cons, Call.isSetBaseEvent]
      · simp [List.filter_cons, Call.isRelease]
    rcases t3 with _ | ⟨r4, t4⟩
    · simp [h1, h2, h3] at hr
      exact absurd hr hne
    by_cases h4 : r4 = CUDA_SUCCESS
    swap
    · refine ⟨r4, _, _, by simp [hc, h1, h2, h3, h4]; rfl, h4, by simp [hc, h1, h2, h3, h4], rfl, ?_, ?_, ?_, ?_⟩
      · simp [hc, h1, h2, h3, h4]
      · simp [List.filter_cons, Call.isRetain]
      · simp [List.filter_cons, Call.isSetBaseEvent]
      · simp [List.filter_cons, Call.isRelease]
    simp [h1, h2, h3, h4] at hr
    exact absurd hr hne

theorem constructor_native_failure_aborts_witness :
    ∃ r issued w',
      ur_context_handle_t_.constructor sampleTable [1, 2] sampleFailing =
        (.error (.native r), w') ∧
      r ≠ CUDA_SUCCESS ∧ sampleFailing.results.find? (fun x => x != CUDA_SUCCESS) = some r ∧
      w'.trace = sampleFailing.trace ++ issued ∧
      issued <+: (firstCalls sampleTable sampleFailing 1).dropLast ∧
      issued.filter Call.isRetain = [.urDeviceRetain 1, .retainNativeContext 1] ∧
      issued.filter Call.isSetBaseEvent = [] ∧
      issued.filter Call.isRelease = [] :=
  constructor_native_failure_aborts sampleTable 1 [2] sampleFailing (by decide)
    ⟨5, by decide, by decide⟩

/-- C13, as the code has it: the constructor accepts the empty device list, for which it
issues no call and returns a context with no device. -/
theorem constructor_accepts_empty_list :
    ∃ self w', ur_context_handle_t_.constructor sampleTable [] sampleWorld = (.ok self, w') ∧
      ¬ 1 ≤ self.getDevices.length ∧ w' = sampleWorld :=
  ⟨{ Devices := [], RefCount := 1, ExtendedDeleters := [], PoolHandles := [] }, sampleWorld,
    by decide, by decide, rfl⟩

/-- C13, amended: a context the constructor returns holds as many devices as the list
passed, so at least one whenever that list is not empty; and every member operation that
returns leaves the device list as it was. -/
theorem devices_as_passed_and_kept (T : DeviceTable) (Devs : List ur_device_handle_t)
    (w w' : World) (self : ur_context_handle_t_)
    (h : ur_context_handle_t_.constructor T Devs w = (.ok self, w')) :
    self.getDevices.length = Devs.length ∧
    (Devs ≠ [] → 1 ≤ self.getDevices.length) ∧
    (∀ (s s1 : ur_context_handle_t_) (v v1 : World),
      (∀ f u r, setExtendedDeleter f u s v = (.ok (r, s1), v1) → s1.getDevices = s.getDevices) ∧
      (∀ r, invokeExtendedDeleters s v = (.ok (r, s1), v1) → s1.getDevices = s.getDevices) ∧
      (∀ d r, getDeviceIndex d s v = (.ok (r, s1), v1) → s1.getDevices = s.getDevices) ∧
      (∀ r, incrementReferenceCount s v = (.ok (r, s1), v1) → s1.getDevices = s.getDevices) ∧
      (∀ r, decrementReferenceCount s v = (.ok (r, s1), v1) → s1.getDevices = s.getDevices) ∧
      (∀ P r, addPool P s v = (.ok (r, s1), v1) → s1.getDevices = s.getDevices) ∧
      (∀ P r, removePool P s v = (.ok (r, s1), v1) → s1.getDevices = s.getDevices) ∧
      (∀ np U r, getOwningURPool np U s v = (.ok (r, s1), v1) →
        s1.getDevices = s.getDevices)) := by
  obtain ⟨rfl, _⟩ := (constructor_eq_ok T Devs w w' self).1 h
  refine ⟨rfl, ?_, ?_⟩
  · intro hne
    cases Devs with
    | nil => exact absurd rfl hne
    | cons d ds => simp [getDevices]
  · intro s s1 v v1
    refine ⟨?_, ?_, ?_, ?_, ?_, ?_, ?_, ?_⟩
    · intro f u r hr
      rw [method_ok_of_pure _ _ _ _ _ _ hr]; rfl
    · intro r hr
      rw [invokeExtendedDeleters_eq_ok s s1 v v1 r hr]
    · intro d r hr
      simp only [getDeviceIndex] at hr
      split at hr
      · rw [method_ok_of_pure _ _ _ _ _ _ hr]
      · cases (Prod.mk.inj hr).1
    · intro r hr
      rw [method_ok_of_pure _ _ _ _ _ _ hr]; rfl
    · intro r hr
      rw [method_ok_of_pure _ _ _ _ _ _ hr]; rfl
    · intro P r hr
      rw [method_ok_of_pure _ _ _ _ _ _ hr]; rfl
    · intro P r hr
      rw [method_ok_of_pure _ _ _ _ _ _ hr]; rfl
    · intro np U r hr
      rw [method_ok_of_pure _ _ _ _ _ _ hr]

theorem devices_as_passed_and_kept_witness :
    sampleFresh.getDevices.length = ([1, 2, 1] : List ur_device_handle_t).length ∧
    (([1, 2, 1] : List ur_device_handle_t) ≠ [] → 1 ≤ sampleFresh.getDevices.length) ∧
    (∀ (s s1 : ur_context_handle_t_) (v v1 : World),
      (∀ f u r, setExtendedDeleter f u s v = (.ok (r, s1), v1) → s1.getDevices = s.getDevices) ∧
      (∀ r, invokeExtendedDeleters s v = (.ok (r, s1), v1) → s1.getDevices = s.getDevices) ∧
      (∀ d r, getDeviceIndex d s v = (.ok (r, s1), v1) → s1.getDevices = s.getDevices) ∧
      (∀ r, incrementReferenceCount s v = (.ok (r, s1), v1) → s1.getDevices = s.getDevices) ∧
      (∀ r, decrementReferenceCount s v = (.ok (r, s1), v1) → s1.getDevices = s.getDevices) ∧
      (∀ P r, addPool P s v = (.ok (r, s1), v1) → s1.getDevices = s.getDevices) ∧
      (∀ P r, removePool P s v = (.ok (r, s1), v1) → s1.getDevices = s.getDevices) ∧
      (∀ np U r, getOwningURPool np U s v = (.ok (r, s1), v1) →
        s1.getDevices = s.getDevices)) :=
  devices_as_passed_and_kept sampleTable [1, 2, 1] sampleWorld sampleConstructed sampleFresh
    (by decide)

/-- C16: for a member device `getDeviceIndex` returns the least position that holds it.
So when an earlier position `j` holds the same device as position `k`, the index returned
for that device is at most `j` and is not `k`; and `getDeviceIndex(Devices[i])` returns `i`
for every position `i` exactly when the device list has no duplicates. -/
theorem getDeviceIndex_least_position (self : ur_context_handle_t_) (w : World) :
    (∀ d, d ∈ self.getDevices →
      ∃ i, getDeviceIndex d self w = (.ok (i, self), w) ∧ self.getDevices[i]? = some d ∧
        ∀ j, j < i → self.getDevices[j]? ≠ some d) ∧
    (∀ j k d, j < k → self.getDevices[j]? = some d → self.getDevices[k]? = some d →
      ∃ i, getDeviceIndex d self w = (.ok (i, self), w) ∧ i ≤ j ∧ i ≠ k) ∧
    ((∀ i (hi : i < self.getDevices.length),
        getDeviceIndex (self.getDevices.get ⟨i, hi⟩) self w = (.ok (i, self), w)) ↔
      self.getDevices.Nodup) := by
  refine ⟨?_, ?_, ?_⟩
  · intro d hd
    exact ⟨_, getDeviceIndex_apply_of_mem self d w hd, (std_find_of_mem self.Devices d hd).2,
      std_find_least self.Devices d⟩
  · intro j k d hjk hj hk
    have hd : d ∈ self.Devices := List.getElem?_mem hj
    have hle := std_find_le_of_getElem self.Devices d j hj
    exact ⟨_, getDeviceIndex_apply_of_mem self d w hd, hle, by omega⟩
  · constructor
    · intro h
      apply nodup_of_std_find_getElem
      intro i hi
      have h1 := h i hi
      have hmem : self.Devices[i] ∈ self.Devices := List.getElem_mem hi
      have h2 := getDeviceIndex_apply_of_mem self self.Devices[i] w hmem
      have h3 : getDeviceIndex self.Devices[i] self w = (.ok (i, self), w) := h1
      rw [h2] at h3
      exact (Prod.mk.inj (Except.ok.inj (Prod.mk.inj h3).1)).1
    · intro hn i hi
      have hmem : self.Devices[i] ∈ self.Devices := List.getElem_mem hi
      have h2 := getDeviceIndex_apply_of_mem self self.Devices[i] w hmem
      have h3 := std_find_getElem_nodup self.Devices hn i hi
      show getDeviceIndex self.Devices[i] self w = _
      rw [h2, h3]

theorem getDeviceIndex_least_position_witness :
    ∃ i, getDeviceIndex 1 sampleContext sampleWorld = (.ok (i, sampleContext), sampleWorld) ∧
      i ≤ 0 ∧ i ≠ 2 :=
  (getDeviceIndex_least_position sampleContext sampleWorld).2.1 0 2 1 (by decide) (by decide)
    (by decide)

/-- C17: the reference count is arithmetic modulo `2 ^ 32` with no failure branch: for
every count `c`, `incrementReferenceCount` returns `(c + 1) mod 2 ^ 32` and
`decrementReferenceCount` returns `(c - 1) mod 2 ^ 32`, both storing what they return; a
decrement at `0` returns `4294967295` and an increment at `4294967295` returns `0`. -/
theorem reference_count_wraps_modulo (self : ur_context_handle_t_) (w : World) :
    (∃ v, incrementReferenceCount self w = (.ok (v, { self with RefCount := v }), w) ∧
      v = (self.getReferenceCount + 1) % 2 ^ 32) ∧
    (∃ v, decrementReferenceCount self w = (.ok (v, { self with RefCount := v }), w) ∧
      (v : Int) = ((self.getReferenceCount : Int) - 1) % 2 ^ 32) ∧
    decrementReferenceCount { self with RefCount := 0 } w =
      (.ok (4294967295, { self with RefCount := 4294967295 }), w) ∧
    incrementReferenceCount { self with RefCount := 4294967295 } w =
      (.ok (0, { self with RefCount := 0 }), w) := by
  refine ⟨⟨_, rfl, rfl⟩, ⟨(4294967295 + self.RefCount) % 4294967296, rfl, ?_⟩, ?_, ?_⟩
  · have e : ((2 : Int) ^ 32) = 4294967296 := by norm_num
    rw [e]
    show (((4294967295 + self.RefCount) % 4294967296 : Nat) : Int)
      = ((self.RefCount : Int) - 1) % 4294967296
    omega
  · simp [decrementReferenceCount]
  · simp [incrementReferenceCount]

end CudaContext
